import Mathlib

/-!
# Linux back-end of the `ps` process-introspection library (`src/api-linux.c`)

A shallow embedding of the C source.  Bytes are `Char`s, buffers are `List Char`,
the kernel's answers to the system calls are collected in a read-only snapshot `Sys`,
and the C globals (`errno`, the pending error object, the two calibration globals)
are threaded explicitly through every function.

C `double` arithmetic is kept abstract: every definition is parameterised by a
`DoubleOps F` record supplying `+`, `/`, the integer-to-double conversion and `==`.
All general theorems hold for every such interpretation.
-/

namespace Ps

/-! ## Errors and outcomes -/

/-- The error object that the `ps__*` error setters store and `ps__throw_error` raises,
together with plain R errors raised by `error(...)`. -/
inductive PsError where
  /-- Set by `ps__no_such_process(pid, 0)`. -/
  | no_such_process (pid : Int)
  /-- Set by `ps__zombie_process(pid)`. -/
  | zombie_process (pid : Int)
  /-- Set by `ps__access_denied("")`. -/
  | access_denied
  /-- Set by `ps__no_memory("")`. -/
  | no_memory
  /-- Set by `ps__set_error_from_errno()`: the generic OS failure carrying `errno`. -/
  | from_errno (errno : Int)
  /-- Set by `ps__set_error("Cannot parse stat file, parsed: %i/20 fields", n)`. -/
  | parsed_fields (n : Int)
  /-- Set by `ps__set_error(msg)` with a constant message. -/
  | message (msg : String)
  /-- Raised directly by R's `error(msg)`. -/
  | r_error (msg : String)
  /-- No error has been set yet. -/
  | unset
  deriving DecidableEq, Repr

/-- How a call of a C function ends. -/
inductive Outcome (α : Type) where
  /-- The function returns normally. -/
  | ok (a : α)
  /-- An R condition is raised (`ps__throw_error()` or `error()`), unwinding the call. -/
  | threw (e : PsError)
  /-- The C code reads or writes outside the data it owns, or a conversion result is
  not representable: the behaviour is undefined. -/
  | undefined
  deriving DecidableEq, Repr

/-! ## Abstract `double` arithmetic -/

/-- The operations on C `double`s used by the source. -/
structure DoubleOps (F : Type) where
  /-- Addition of doubles. -/
  add : F → F → F
  /-- Division of doubles. -/
  div : F → F → F
  /-- Conversion of an integer object to `double`. -/
  ofInt : Int → F
  /-- The comparison `==`; `!=` is its negation. -/
  eq : F → F → Bool

/-- The C truth test `!x` on a double: `x == 0`. -/
def DoubleOps.isZero {F : Type} (ops : DoubleOps F) (x : F) : Bool :=
  ops.eq x (ops.ofInt 0)

/-- A concrete interpretation used to evaluate the code on examples: IEEE special values
with exact fractions `num / den` for the finite values (rounding is not modelled). -/
inductive Dbl where
  | fin (num : Int) (den : Nat)
  | inf (negative : Bool)
  | nan
  deriving DecidableEq, Repr

namespace Dbl

/-- Addition. -/
def add : Dbl → Dbl → Dbl
  | fin a b, fin c d => fin (a * d + c * b) (b * d)
  | fin _ _, inf s => inf s
  | inf s, fin _ _ => inf s
  | inf s, inf t => if s = t then inf s else nan
  | _, _ => nan

/-- Division; a finite value divided by zero is infinite, `0 / 0` is not a number. -/
def div : Dbl → Dbl → Dbl
  | fin a b, fin c d =>
      if c = 0 then (if a = 0 then nan else inf (decide (a < 0)))
      else if 0 < c then fin (a * d) (b * c.natAbs)
      else fin (-(a * d)) (b * c.natAbs)
  | fin _ _, inf _ => fin 0 1
  | inf s, fin c _ => inf (s != decide (c < 0))
  | _, _ => nan

/-- The comparison `==`; not-a-number equals nothing. -/
def eq : Dbl → Dbl → Bool
  | fin a b, fin c d => decide (a * d = c * b)
  | inf s, inf t => s == t
  | _, _ => false

/-- The exact interpretation of the double operations. -/
def ops : DoubleOps Dbl := ⟨add, div, fun n => fin n 1, eq⟩

end Dbl

/-! ## C strings and the `libc` string functions -/

/-- The null byte. -/
def NUL : Char := '\x00'

/-- The C string stored in `buf` at offset `i`: the bytes before the first null byte. -/
def cstr (buf : List Char) (i : Nat) : List Char :=
  (buf.drop i).takeWhile (fun c => c != NUL)

/-- Offset of the first occurrence of `c` in a byte string. -/
def firstIndexOf (c : Char) : List Char → Option Nat
  | [] => none
  | x :: xs => if x = c then some 0 else (firstIndexOf c xs).map (· + 1)

/-- Offset of the last occurrence of `c` in a byte string. -/
def lastIndexOf (c : Char) : List Char → Option Nat
  | [] => none
  | x :: xs =>
    match lastIndexOf c xs with
    | some i => some (i + 1)
    | none => if x = c then some 0 else none

/-- The function `strchr(buf, c)` for `c ≠ 0`: offset of the first `c` in the C string
at the start of `buf`, `none` for a null pointer. -/
def strchr (buf : List Char) (c : Char) : Option Nat := firstIndexOf c (cstr buf 0)

/-- The function `strrchr(buf, c)` for `c ≠ 0`: offset of the last `c` in the C string. -/
def strrchr (buf : List Char) (c : Char) : Option Nat := lastIndexOf c (cstr buf 0)

/-- Whether `needle` starts `hay`. -/
def startsWith : List Char → List Char → Bool
  | _, [] => true
  | [], _ :: _ => false
  | h :: hs, n :: ns => h == n && startsWith hs ns

/-- Modelled from the spec: `ps__memmem(haystack, n1, needle, n2)` (declared in the source,
defined outside `src/`) locates a labelled line: the offset of the first occurrence of
`needle` in the `n1` bytes of the haystack, `none` for a null pointer. -/
def ps__memmem : List Char → List Char → Option Nat
  | [], needle => if needle.isEmpty then some 0 else none
  | h :: hs, needle =>
    if startsWith (h :: hs) needle then some 0 else (ps__memmem hs needle).map (· + 1)

/-! ## `sscanf` for the conversions the source uses -/

/-- The conversion specifiers occurring in the source's formats. -/
inductive Conv where
  | c | d | u | lu | ld | llu
  deriving DecidableEq, Repr

/-- A directive of a format string. -/
inductive Directive where
  /-- White space in the format: skips any amount of white space in the input. -/
  | space
  /-- A conversion specification. -/
  | conv (k : Conv)
  deriving DecidableEq, Repr

/-- Reads a format string; `none` for anything the source does not use. -/
def parseFormat : List Char → Option (List Directive)
  | [] => some []
  | ' ' :: r => (parseFormat r).map (Directive.space :: ·)
  | '%' :: 'c' :: r => (parseFormat r).map (Directive.conv .c :: ·)
  | '%' :: 'd' :: r => (parseFormat r).map (Directive.conv .d :: ·)
  | '%' :: 'u' :: r => (parseFormat r).map (Directive.conv .u :: ·)
  | '%' :: 'l' :: 'u' :: r => (parseFormat r).map (Directive.conv .lu :: ·)
  | '%' :: 'l' :: 'd' :: r => (parseFormat r).map (Directive.conv .ld :: ·)
  | '%' :: 'l' :: 'l' :: 'u' :: r => (parseFormat r).map (Directive.conv .llu :: ·)
  | _ => none

/-- Width in bits of the object a conversion stores into (LP64 Linux). -/
def Conv.bits : Conv → Nat
  | .c => 8 | .d => 32 | .u => 32 | .lu => 64 | .ld => 64 | .llu => 64

/-- Whether the conversion stores into a signed object. -/
def Conv.signed : Conv → Bool
  | .d => true | .ld => true | _ => false

/-- The function `isspace` in the C locale. -/
def isspace (c : Char) : Bool :=
  c == ' ' || c == '\t' || c == '\n' || c == '\x0b' || c == '\x0c' || c == '\r'

/-- Whether `c` is a decimal digit. -/
def isdigit (c : Char) : Bool := decide ('0'.toNat ≤ c.toNat) && decide (c.toNat ≤ '9'.toNat)

/-- Value of a decimal digit. -/
def digitValue (c : Char) : Nat :=
  if c = '1' then 1 else if c = '2' then 2 else if c = '3' then 3 else if c = '4' then 4
  else if c = '5' then 5 else if c = '6' then 6 else if c = '7' then 7 else if c = '8' then 8
  else if c = '9' then 9 else 0

/-- Value of a string of decimal digits, continuing from `acc`. -/
def digitsVal (acc : Nat) : List Char → Nat
  | [] => acc
  | c :: cs => digitsVal (acc * 10 + digitValue c) cs

/-- Result of one integer conversion. -/
inductive ConvResult where
  /-- The input ended before any character was read. -/
  | inputFailure
  /-- The input does not start with a number. -/
  | matchFailure
  /-- The number cannot be represented in the object: undefined behaviour. -/
  | overflow
  /-- The value stored and the remaining input. -/
  | val (v : Int) (rest : List Char)
  deriving DecidableEq, Repr

/-- Stores the number with sign `neg` and magnitude `v` into the object of conversion `k`. -/
def storeInt (k : Conv) (neg : Bool) (v : Nat) (rest : List Char) : ConvResult :=
  if k.signed then
    if neg then (if v ≤ 2 ^ (k.bits - 1) then .val (-(v : Int)) rest else .overflow)
    else (if v < 2 ^ (k.bits - 1) then .val v rest else .overflow)
  else
    if v < 2 ^ k.bits then
      .val (if neg then (((2 ^ k.bits - v) % 2 ^ k.bits : Nat) : Int) else v) rest
    else .overflow

/-- The digits of an integer conversion, after the optional sign. -/
def scanDigits (k : Conv) (neg : Bool) (s : List Char) : ConvResult :=
  let ds := s.takeWhile isdigit
  if ds.isEmpty then .matchFailure
  else storeInt k neg (digitsVal 0 ds) (s.dropWhile isdigit)

/-- An integer conversion (`%d`, `%u`, `%lu`, `%ld`, `%llu`) on input whose leading
white space has been skipped: an optionally signed decimal integer. -/
def scanInt (k : Conv) : List Char → ConvResult
  | [] => .inputFailure
  | '-' :: s => scanDigits k true s
  | '+' :: s => scanDigits k false s
  | s => scanDigits k false s

/-- A value assigned by a conversion. -/
inductive Item where
  | chr (ch : Char)
  | int (v : Int)
  deriving DecidableEq, Repr

/-- Return value of `sscanf` when a directive fails after `acc` was assigned: `EOF` for an
input failure before the first conversion has completed, else the number of items. -/
def scanStop (inputFailure : Bool) (acc : List Item) : Int :=
  if inputFailure && acc.isEmpty then -1 else acc.length

/-- Runs the directives over the input; `none` when the behaviour is undefined. -/
def scan : List Directive → List Char → List Item → Option (Int × List Item)
  | [], _, acc => some (acc.length, acc)
  | .space :: ds, s, acc => scan ds (s.dropWhile isspace) acc
  | .conv .c :: ds, s, acc =>
    match s with
    | [] => some (scanStop true acc, acc)
    | ch :: rest => scan ds rest (acc ++ [.chr ch])
  | .conv k :: ds, s, acc =>
    match scanInt k (s.dropWhile isspace) with
    | .inputFailure => some (scanStop true acc, acc)
    | .matchFailure => some (scanStop false acc, acc)
    | .overflow => none
    | .val v rest => scan ds rest (acc ++ [.int v])

/-- The call `sscanf(s, format, ...)` on the C string `s`: the return value and the
values assigned, in the order of the pointer arguments; `none` when undefined. -/
def sscanf (s : List Char) (format : String) : Option (Int × List Item) :=
  match parseFormat format.toList with
  | none => none
  | some ds => scan ds s []

/-! ## The system snapshot and the C globals -/

/-- The per-process files of `/proc/<pid>/` that the source reads with `ps__read_file`. -/
inductive ProcFile where
  | stat | cmdline | environ | status | statm
  deriving DecidableEq, Repr

/-- The per-process symbolic links that the source resolves with `readlink`. -/
inductive ProcLink where
  | exe | cwd
  deriving DecidableEq, Repr

/-- What the kernel answers at the time of a call. A failing call carries its `errno`. -/
structure Sys where
  /-- Content of `/proc/<pid>/<file>` as `ps__read_file` delivers it, or the `errno`. -/
  read_file : Int → ProcFile → Except Int (List Char)
  /-- Content of `/proc/stat`, or the `errno`. -/
  proc_stat : Except Int (List Char)
  /-- Target of the symbolic link `/proc/<pid>/<link>`, or the `errno` of `readlink`. -/
  link : Int → ProcLink → Except Int (List Char)
  /-- Result of `lstat("/proc/<pid>")`: `none` on success, else the `errno`. -/
  lstat : Int → Option Int
  /-- Value of `sysconf(_SC_CLK_TCK)`. -/
  clk_tck : Int
  /-- Value of `getpid()`. -/
  getpid : Int

/-- The mutable globals of the C program. -/
structure Globals (F : Type) where
  /-- The C `errno`. -/
  errno : Int
  /-- The pending error stored by the `ps__set_error` family. -/
  last_error : PsError
  /-- The global `psll_linux_boot_time`. -/
  psll_linux_boot_time : F
  /-- The global `psll_linux_clock_ticks`. -/
  psll_linux_clock_ticks : F
  deriving DecidableEq, Repr

/-- The state of the globals at program start (`double psll_linux_boot_time = 0;` and
`double psll_linux_clock_ticks = 0;`). -/
def Globals.initial {F : Type} (ops : DoubleOps F) : Globals F :=
  ⟨0, .unset, ops.ofInt 0, ops.ofInt 0⟩

/-- The Linux value of `EPERM`. -/
def EPERM : Int := 1

/-- The Linux value of `ENOENT`. -/
def ENOENT : Int := 2

/-- The Linux value of `ESRCH`. -/
def ESRCH : Int := 3

/-- The Linux value of `EACCES`. -/
def EACCES : Int := 13

/-- A C function acting on the globals. -/
def M (F : Type) (α : Type) : Type := Globals F → Outcome α × Globals F

/-- Sequencing of C statements: an error or undefined behaviour ends the call. -/
def M.bind {F α β : Type} (m : M F α) (f : α → M F β) : M F β := fun g =>
  match m g with
  | (.ok a, g1) => f a g1
  | (.threw e, g1) => (.threw e, g1)
  | (.undefined, g1) => (.undefined, g1)

instance {F : Type} : Monad (M F) where
  pure a := fun g => (.ok a, g)
  bind := M.bind

/-- Undefined behaviour. -/
def undefinedBehaviour {F α : Type} : M F α := fun g => (.undefined, g)

/-- R's `error(msg)`. -/
def r_error {F α : Type} (msg : String) : M F α := fun g => (.threw (.r_error msg), g)

/-- Reads `errno`. -/
def get_errno {F : Type} : M F Int := fun g => (.ok g.errno, g)

/-- Assigns `errno`. -/
def set_errno {F : Type} (e : Int) : M F Unit := fun g => (.ok (), { g with errno := e })

/-- Reads the calibration globals `(psll_linux_boot_time, psll_linux_clock_ticks)`. -/
def get_calibration {F : Type} : M F (F × F) :=
  fun g => (.ok (g.psll_linux_boot_time, g.psll_linux_clock_ticks), g)

/-! ### The error helpers of `common.h`

Their definitions are not part of `src/`; the source uses them as "store the pending
error" followed by `ps__throw_error()`. -/

/-- Modelled from the spec: the `ps__set_error` family (absent from `src/`) records exactly
one pending error of the taxonomy, replacing the previous one. -/
def set_last_error {F : Type} (e : PsError) : M F Unit :=
  fun g => (.ok (), { g with last_error := e })

/-- Modelled from the spec: `ps__throw_error()` (absent from `src/`) signals the pending
error by a non-local exit. -/
def ps__throw_error {F α : Type} : M F α := fun g => (.threw g.last_error, g)

/-- The call `ps__set_error(msg)` with a constant message. -/
def ps__set_error {F : Type} (msg : String) : M F Unit := set_last_error (.message msg)

/-- The call `ps__no_such_process(pid, 0)`. -/
def ps__no_such_process {F : Type} (pid : Int) : M F Unit := set_last_error (.no_such_process pid)

/-- The call `ps__zombie_process(pid)`. -/
def ps__zombie_process {F : Type} (pid : Int) : M F Unit := set_last_error (.zombie_process pid)

/-- The call `ps__access_denied("")`. -/
def ps__access_denied {F : Type} : M F Unit := set_last_error .access_denied

/-- Modelled from the spec: `ps__set_error_from_errno()` (absent from `src/`) records the
generic OS failure carrying the current `errno`. -/
def ps__set_error_from_errno {F : Type} : M F Unit :=
  fun g => (.ok (), { g with last_error := .from_errno g.errno })

/-! ### System calls -/

/-- Modelled from the spec: `ps__read_file("/proc/<pid>/<file>", &buf, size)` (declared in
the source, defined outside `src/`) reads the file as raw bytes: `none` for the return
value `-1` (with `errno` set), else the bytes read; the return value is their number. -/
def ps__read_file {F : Type} (sys : Sys) (pid : Int) (file : ProcFile) :
    M F (Option (List Char)) := fun g =>
  match sys.read_file pid file with
  | .error e => (.ok none, { g with errno := e })
  | .ok data => (.ok (some data), g)

/-- The call `ps__read_file("/proc/stat", &buf, 2048)`. -/
def ps__read_proc_stat {F : Type} (sys : Sys) : M F (Option (List Char)) := fun g =>
  match sys.proc_stat with
  | .error e => (.ok none, { g with errno := e })
  | .ok data => (.ok (some data), g)

/-- The call `lstat("/proc/<pid>", &st)`: `true` when it returns 0, else `errno` is set. -/
def lstat {F : Type} (sys : Sys) (pid : Int) : M F Bool := fun g =>
  match sys.lstat pid with
  | none => (.ok true, g)
  | some e => (.ok false, { g with errno := e })

/-- The call `readlink("/proc/<pid>/<link>", buf, k)`: writes the first `min n k` bytes of
the `n`-byte target and returns that count; `none` for `-1` (with `errno` set). -/
def readlink {F : Type} (sys : Sys) (pid : Int) (l : ProcLink) (k : Nat) :
    M F (Option (List Char)) := fun g =>
  match sys.link pid l with
  | .error e => (.ok none, { g with errno := e })
  | .ok target => (.ok (some (target.take k)), g)

/-! ## The data model -/

/-- The struct `psl_stat_t`: the fields of `/proc/<pid>/stat` after the command name. -/
structure psl_stat_t where
  state : Char
  ppid : Int
  pgrp : Int
  session : Int
  tty_nr : Int
  tpgid : Int
  flags : Int
  minflt : Int
  cminflt : Int
  majflt : Int
  cmajflt : Int
  utime : Int
  stime : Int
  cutime : Int
  cstime : Int
  priority : Int
  nice : Int
  num_threads : Int
  itrealvalue : Int
  starttime : Int
  deriving DecidableEq

/-- Modelled from the spec: the struct `ps_handle_t` of `common.h` (absent from `src/`):
the process identifier, the captured creation time and the cached `gone` hint. -/
structure ps_handle_t (F : Type) where
  pid : Int
  create_time : F
  gone : Int
  deriving DecidableEq, Repr

/-- The expression `psll_linux_boot_time + stat.starttime / psll_linux_clock_ticks`. -/
def creation_time {F : Type} (ops : DoubleOps F) (boot ticks : F) (stat : psl_stat_t) : F :=
  ops.add boot (ops.div (ops.ofInt stat.starttime) ticks)

/-- The macro `PS__GET_STATUS`: the status name of a run state, `none` for the
`default:` case. -/
def PS__GET_STATUS (state : Char) : Option String :=
  if state = 'R' then some "running"
  else if state = 'S' then some "sleeping"
  else if state = 'D' then some "disk_sleep"
  else if state = 'T' then some "stopped"
  else if state = 't' then some "tracing_stop"
  else if state = 'Z' then some "zombie"
  else if state = 'X' then some "dead"
  else if state = 'x' then some "dead"
  else if state = 'K' then some "wake_kill"
  else if state = 'W' then some "waking"
  else none

/-- Conversion of an integer to the C type `int` (two's complement, 32 bits). -/
def to_int (v : Int) : Int := (v + 2 ^ 31) % 2 ^ 32 - 2 ^ 31

/-- The return value of `ps__read_file`: `-1` on failure, else the number of bytes. -/
def ret_of (r : Option (List Char)) : Int :=
  match r with
  | none => -1
  | some data => data.length

/-- The values `sscanf` assigned through the twenty pointers `&stat->state`, ...,
`&stat->starttime`, in the order of the call. -/
def stat_of_items : List Item → Option psl_stat_t
  | [.chr state, .int ppid, .int pgrp, .int session, .int tty_nr, .int tpgid, .int flags,
     .int minflt, .int cminflt, .int majflt, .int cmajflt, .int utime, .int stime,
     .int cutime, .int cstime, .int priority, .int nice, .int num_threads,
     .int itrealvalue, .int starttime] =>
    some ⟨state, ppid, pgrp, session, tty_nr, tpgid, flags, minflt, cminflt, majflt,
      cmajflt, utime, stime, cutime, cstime, priority, nice, num_threads, itrealvalue,
      starttime⟩
  | _ => none

/-! ## The functions of `api-linux.c` -/

section Source

variable {F : Type} (ops : DoubleOps F) (sys : Sys)

/-- The macro `PS__CHECK_STAT(stat, handle)`. -/
def PS__CHECK_STAT (stat : psl_stat_t) (handle : ps_handle_t F) : M F Unit := do
  let cal ← get_calibration
  if !(ops.eq (creation_time ops cal.1 cal.2 stat) handle.create_time) then do
    ps__no_such_process handle.pid
    ps__throw_error
  else pure ()

/-- The function `ps__wrap_linux_error`. -/
def ps__wrap_linux_error (handle : ps_handle_t F) : M F Unit := do
  let e ← get_errno
  (if e = ENOENT ∨ e = ESRCH then do
    /- no such file error; might be raised also if the path actually exists for
       system processes with low pids (about 0-20) -/
    let ret ← lstat sys handle.pid
    if ret then
      /- process exists, other error -/
      ps__set_error_from_errno
    else do
      let e2 ← get_errno
      if e2 = ENOENT then ps__no_such_process handle.pid
      else if e2 = EPERM ∨ e2 = EACCES then ps__access_denied
      else ps__set_error_from_errno
  else ps__set_error_from_errno)
  ps__throw_error

/-- The loop of `psll__readlink` with the buffer size `size`: the buffer `*linkname`
up to and including the null terminator on success, `none` for the return value `-1`.
Sizes are natural numbers (a link target that fits in memory keeps them far below the
range of `ssize_t`), and `R_alloc` and `S_realloc` are taken to succeed. -/
def psll__readlink_loop (pid : Int) (l : ProcLink) (size : Nat) (g : Globals F) :
    Outcome (Option (List Char)) × Globals F :=
  match h : readlink sys pid l (size - 1) g with
  | (.ok none, g1) => (.ok none, g1)
  | (.ok (some bytes), g1) =>
    if bytes.length < 1 then (.ok none, { g1 with errno := ENOENT })
    else if bytes.length < size - 1 then (.ok (some (bytes ++ [NUL])), g1)
    else psll__readlink_loop pid l (size + 1024) g1
  | (.threw e, g1) => (.threw e, g1)
  | (.undefined, g1) => (.undefined, g1)
termination_by (match sys.link pid l with | .ok t => t.length + 2 - size | .error _ => 0)
decreasing_by
  simp only [readlink] at h
  split at h
  · simp at h
  · rename_i target htarget
    simp only [Prod.mk.injEq, Outcome.ok.injEq, Option.some.injEq] at h
    obtain ⟨hb, -⟩ := h
    subst hb
    simp only [htarget, List.length_take, inf_lt_iff, not_or, not_lt] at *
    apply Nat.sub_lt_sub_left <;> omega

/-- The function `psll__readlink`, started with `size = 1024`. -/
def psll__readlink (pid : Int) (l : ProcLink) : M F (Option (List Char)) :=
  psll__readlink_loop sys pid l 1024

/-- The function `psll__parse_stat_file(pid, &stat, &name)`: `none` for the return value
`-1`, else the struct filled in and the command name. The two `snprintf` branches cannot
be taken: the path has at most 31 bytes. -/
def psll__parse_stat_file (pid : Int) : M F (Option (psl_stat_t × List Char)) := do
  let r ← ps__read_file sys pid .stat
  match r with
  | none => pure none
  | some data =>
    /- `*(buf + ret - 1) = 0`: writes before the buffer when nothing was read -/
    if data.length = 0 then undefinedBehaviour
    else
      let buf := data.set (data.length - 1) NUL
      /- Find the first '(' and last ')', that's the end of the command -/
      match strchr buf '(', strrchr buf ')' with
      | some l, some r =>
        let buf := buf.set r NUL
        /- `r + 2` points behind the bytes read when the ')' ends the record -/
        if buf.length ≤ r + 2 then undefinedBehaviour
        else
          match sscanf (cstr buf (r + 2))
            "%c %d %d %d %d %d %u %lu %lu %lu %lu %lu %lu %ld %ld %ld %ld %ld %ld %llu" with
          | none => undefinedBehaviour
          | some (ret, items) =>
            if ret = -1 then pure none
            else if ret ≠ 20 then do
              set_last_error (.parsed_fields ret)
              pure none
            else
              match stat_of_items items with
              | some stat => pure (some (stat, cstr buf (l + 1)))
              | none => undefinedBehaviour
      | _, _ => do
        ps__set_error "Cannot parse stat file"
        ps__throw_error

/-- The function `ps__check_for_zombie(handle, err)`. -/
def ps__check_for_zombie (handle : Option (ps_handle_t F)) (err : Bool) : M F Unit :=
  match handle with
  | none => r_error "Process pointer cleaned up already"
  | some handle => do
    let r ← psll__parse_stat_file sys handle.pid
    match r with
    | none => do
      ps__wrap_linux_error sys handle
      ps__throw_error
    | some (stat, _) =>
      let cal ← get_calibration
      let err ←
        (if !(ops.eq (creation_time ops cal.1 cal.2 stat) handle.create_time) then do
          ps__no_such_process handle.pid
          pure true
        else if stat.state = 'Z' then do
          ps__zombie_process handle.pid
          pure true
        else do
          ps__set_error_from_errno
          pure err)
      if err then ps__throw_error else pure ()

/-- The macro `PS__CHECK_HANDLE(handle)`. -/
def PS__CHECK_HANDLE (handle : ps_handle_t F) : M F Unit := do
  let r ← psll__parse_stat_file sys handle.pid
  match r with
  | none => do
    ps__wrap_linux_error sys handle
    ps__throw_error
  | some (stat, _) => PS__CHECK_STAT ops stat handle

/-- The function `psll_linux_get_boot_time`: the returned `int`. -/
def psll_linux_get_boot_time : M F Int := do
  let needle := "\nbtime ".toList
  let r ← ps__read_proc_stat sys
  match r with
  | none => pure (-1)
  | some data =>
    if data.length = 0 then undefinedBehaviour
    else
      let buf := data.set (data.length - 1) NUL
      match ps__memmem buf needle with
      | none => pure (-1)
      | some hit =>
        match sscanf (cstr buf (hit + needle.length)) "%lu" with
        | none => undefinedBehaviour
        | some (ret, items) =>
          if ret ≠ 1 then pure (-1)
          else
            match items with
            | [.int btime] => fun g =>
              (.ok 0, { g with psll_linux_boot_time := ops.ofInt btime })
            | _ => undefinedBehaviour

/-- The function `psll_linux_get_clock_ticks`. -/
def psll_linux_get_clock_ticks : M F Int := fun g =>
  (.ok 0, { g with psll_linux_clock_ticks := ops.ofInt sys.clk_tck })

/-- The function `psll_linux_ctime(pid, &ctime)`: `none` for a non-zero return value. -/
def psll_linux_ctime (pid : Int) : M F (Option F) := do
  let r ← psll__parse_stat_file sys pid
  match r with
  | none => pure none
  | some (stat, _) =>
    let cal ← get_calibration
    let ret ← (if ops.isZero cal.1 then psll_linux_get_boot_time ops sys else pure 0)
    if ret ≠ 0 then pure none
    else do
      let cal ← get_calibration
      let ret ← (if ops.isZero cal.2 then psll_linux_get_clock_ticks ops sys else pure 0)
      if ret ≠ 0 then pure none
      else do
        let cal ← get_calibration
        pure (some (creation_time ops cal.1 cal.2 stat))

/-- The function `psll_handle(pid, time)`; `malloc` is taken to succeed. -/
def psll_handle (pid : Option Int) (time : Option F) : M F (ps_handle_t F) := do
  let cpid := match pid with
    | none => sys.getpid
    | some v => v
  let ctime ←
    (match time with
     | some t => pure t
     | none => do
       let r ← psll_linux_ctime ops sys cpid
       match r with
       | none => ps__throw_error
       | some t => pure t)
  pure ⟨cpid, ctime, 0⟩

/-- The function `psll_format`: the list `(name, pid, create_time, status)`. -/
def psll_format (p : Option (ps_handle_t F)) : M F (List Char × Int × F × String) :=
  match p with
  | none => r_error "Process pointer cleaned up already"
  | some handle => do
    let r ← psll__parse_stat_file sys handle.pid
    match r with
    | none => pure ("???".toList, handle.pid, handle.create_time, "terminated")
    | some (stat, cname) =>
      pure (cname, handle.pid, handle.create_time,
        (PS__GET_STATUS stat.state).getD "unknown")

/-- The function `psll_parent`. -/
def psll_parent (p : Option (ps_handle_t F)) : M F (ps_handle_t F) :=
  match p with
  | none => r_error "Process pointer cleaned up already"
  | some handle => do
    let r ← psll__parse_stat_file sys handle.pid
    match r with
    | none => do
      ps__wrap_linux_error sys handle
      ps__throw_error
    | some (stat, _) => do
      PS__CHECK_STAT ops stat handle
      psll_handle ops sys (some stat.ppid) none

/-- The function `psll_ppid`. -/
def psll_ppid (p : Option (ps_handle_t F)) : M F Int :=
  match p with
  | none => r_error "Process pointer cleaned up already"
  | some handle => do
    let r ← psll__parse_stat_file sys handle.pid
    match r with
    | none => do
      ps__wrap_linux_error sys handle
      ps__throw_error
    | some (stat, _) => do
      PS__CHECK_STAT ops stat handle
      pure stat.ppid

/-- The function `psll_is_running`. -/
def psll_is_running (p : Option (ps_handle_t F)) : M F Bool :=
  match p with
  | none => r_error "Process pointer cleaned up already"
  | some handle => do
    let r ← psll_linux_ctime ops sys handle.pid
    match r with
    | none => pure false
    | some ctime => pure (ops.eq ctime handle.create_time)

/-- The function `psll_name`. -/
def psll_name (p : Option (ps_handle_t F)) : M F (List Char) :=
  match p with
  | none => r_error "Process pointer cleaned up already"
  | some handle => do
    let r ← psll__parse_stat_file sys handle.pid
    match r with
    | none => do
      ps__wrap_linux_error sys handle
      ps__throw_error
    | some (stat, name) => do
      PS__CHECK_STAT ops stat handle
      pure name

/-- The second loop of `psll_cmdline` and `psll_environ`, from `ptr` to `end`:
`cur` holds the bytes from `prev` to `ptr`, `result` is the character vector allocated
by `allocVector(STRSXP, nstr)`; `none` when `SET_STRING_ELT` is given an index outside
the vector. -/
def string_loop : List Char → List Char → Nat → List (List Char) → Option (List (List Char))
  | [], _, _, result => some result
  | c :: rest, cur, nstr, result =>
    if c = NUL then
      if nstr < result.length then string_loop rest [] (nstr + 1) (result.set nstr cur)
      else none
    else string_loop rest (cur ++ [c]) nstr result

/-- The function `psll_exe`: `none` is `NA_STRING`. -/
def psll_exe (p : Option (ps_handle_t F)) : M F (Option (List Char)) :=
  match p with
  | none => r_error "Process pointer cleaned up already"
  | some handle => do
    let r ← psll__readlink sys handle.pid .exe
    match r with
    | none => do
      let e ← get_errno
      let result ←
        (if e = ENOENT ∨ e = ESRCH then do
          let ret ← lstat sys handle.pid
          if ret then
            /- process exists, but can't get exe -/
            pure (none : Option (List Char))
          else do
            let e2 ← get_errno
            if e2 = ENOENT then do
              ps__no_such_process handle.pid
              ps__throw_error
            else
              /- some other error, anything is possible here... -/
              pure none
        else if e = EPERM ∨ e = EACCES then do
          ps__access_denied
          ps__throw_error
        else do
          ps__set_error_from_errno
          ps__throw_error)
      ps__check_for_zombie ops sys (some handle) true
      pure result
    | some linkname => pure (some (cstr linkname 0))

/-- The function `psll_cmdline`. -/
def psll_cmdline (p : Option (ps_handle_t F)) : M F (List (List Char)) :=
  match p with
  | none => r_error "Process pointer cleaned up already"
  | some handle => do
    let r ← ps__read_file sys handle.pid .cmdline
    (if ret_of r ≤ 0 then ps__check_for_zombie ops sys (some handle) true else pure ())
    PS__CHECK_HANDLE ops sys handle
    match r with
    | none => undefinedBehaviour
    | some buf =>
      match buf.getLast? with
      | none => undefinedBehaviour
      | some last =>
        let sep := if last != NUL then ' ' else NUL
        /- Count number of vars first, then convert to strings -/
        let nstr := buf.count sep
        match string_loop buf [] 0 (List.replicate nstr []) with
        | none => undefinedBehaviour
        | some result => pure result

/-- The function `psll_status`. -/
def psll_status (p : Option (ps_handle_t F)) : M F String :=
  match p with
  | none => r_error "Process pointer cleaned up already"
  | some handle => do
    let r ← psll__parse_stat_file sys handle.pid
    match r with
    | none => do
      ps__wrap_linux_error sys handle
      ps__throw_error
    | some (stat, _) => do
      PS__CHECK_STAT ops stat handle
      match PS__GET_STATUS stat.state with
      | some result => pure result
      | none => r_error "Unknown process status"

/-- The function `psll_cwd`. -/
def psll_cwd (p : Option (ps_handle_t F)) : M F (List Char) :=
  match p with
  | none => r_error "Process pointer cleaned up already"
  | some handle => do
    let r ← psll__readlink sys handle.pid .cwd
    (if r.isNone then ps__check_for_zombie ops sys (some handle) true else pure ())
    PS__CHECK_HANDLE ops sys handle
    match r with
    | none => undefinedBehaviour
    | some linkname => pure (cstr linkname 0)

/-- The function `psll__ids(p, needle)`: the values `(real, effective, saved)`. -/
def psll__ids (p : Option (ps_handle_t F)) (needle : List Char) : M F (Int × Int × Int) :=
  match p with
  | none => r_error "Process pointer cleaned up already"
  | some handle => do
    let r ← ps__read_file sys handle.pid .status
    (if ret_of r = -1 then ps__check_for_zombie ops sys (some handle) true else pure ())
    match r with
    | none => undefinedBehaviour
    | some data =>
      if data.length = 0 then undefinedBehaviour
      else
        let buf := data.set (data.length - 1) NUL
        match ps__memmem buf needle with
        | none => do
          ps__set_error "Cannot read process status file"
          ps__throw_error
        | some hit =>
          match sscanf (cstr buf (hit + needle.length)) " %lu %lu %lu" with
          | none => undefinedBehaviour
          | some (ret, items) =>
            if ret ≠ 3 then do
              ps__set_error "Cannot read process status file"
              ps__throw_error
            else do
              PS__CHECK_HANDLE ops sys handle
              match items with
              | [.int real, .int eff, .int saved] =>
                pure (to_int real, to_int eff, to_int saved)
              | _ => undefinedBehaviour

/-- The function `psll_uids`. -/
def psll_uids (p : Option (ps_handle_t F)) : M F (Int × Int × Int) :=
  psll__ids ops sys p "\nUid:".toList

/-- The function `psll_gids`. -/
def psll_gids (p : Option (ps_handle_t F)) : M F (Int × Int × Int) :=
  psll__ids ops sys p "\nGid:".toList

/-- The function `psll_terminal`: `none` is `NA_INTEGER`. -/
def psll_terminal (p : Option (ps_handle_t F)) : M F (Option Int) :=
  match p with
  | none => r_error "Process pointer cleaned up already"
  | some handle => do
    let r ← psll__parse_stat_file sys handle.pid
    match r with
    | none => do
      ps__wrap_linux_error sys handle
      ps__throw_error
    | some (stat, _) => do
      PS__CHECK_STAT ops stat handle
      if stat.tty_nr = 0 then pure none else pure (some stat.tty_nr)

/-- The function `psll_environ`. -/
def psll_environ (p : Option (ps_handle_t F)) : M F (List (List Char)) :=
  match p with
  | none => r_error "Process pointer cleaned up already"
  | some handle => do
    let r ← ps__read_file sys handle.pid .environ
    (if ret_of r ≤ 0 then ps__check_for_zombie ops sys (some handle) true else pure ())
    match r with
    | none => undefinedBehaviour
    | some data =>
      if data.length = 0 then undefinedBehaviour
      else
        let buf := data.set (data.length - 1) NUL
        /- Count number of vars first, then convert to strings -/
        let nstr := buf.count NUL
        match string_loop buf [] 0 (List.replicate nstr []) with
        | none => undefinedBehaviour
        | some result => pure result

/-- The function `psll_num_threads`. -/
def psll_num_threads (p : Option (ps_handle_t F)) : M F Int :=
  match p with
  | none => r_error "Process pointer cleaned up already"
  | some handle => do
    let r ← psll__parse_stat_file sys handle.pid
    ps__check_for_zombie ops sys (some handle) r.isNone
    match r with
    | none => undefinedBehaviour
    | some (stat, _) => do
      PS__CHECK_STAT ops stat handle
      pure (to_int stat.num_threads)

/-- The function `psll_cpu_times`: `(user, system, childen_user, children_system)`. -/
def psll_cpu_times (p : Option (ps_handle_t F)) : M F (F × F × F × F) :=
  match p with
  | none => r_error "Process pointer cleaned up already"
  | some handle => do
    let r ← psll__parse_stat_file sys handle.pid
    ps__check_for_zombie ops sys (some handle) r.isNone
    match r with
    | none => undefinedBehaviour
    | some (stat, _) => do
      PS__CHECK_STAT ops stat handle
      let cal ← get_calibration
      pure (ops.div (ops.ofInt stat.utime) cal.2, ops.div (ops.ofInt stat.stime) cal.2,
        ops.div (ops.ofInt stat.cutime) cal.2, ops.div (ops.ofInt stat.cstime) cal.2)

/-- The function `psll_memory_info`: `(rss, vms, shared, text, lib, data, dirty)`. -/
def psll_memory_info (p : Option (ps_handle_t F)) : M F (List Int) :=
  match p with
  | none => r_error "Process pointer cleaned up already"
  | some handle => do
    let r ← ps__read_file sys handle.pid .statm
    ps__check_for_zombie ops sys (some handle) (decide (ret_of r ≤ 0))
    match r with
    | none => undefinedBehaviour
    | some data =>
      if data.length = 0 then undefinedBehaviour
      else
        let buf := data.set (data.length - 1) NUL
        match sscanf (cstr buf 0) "%lu %lu %lu %lu %lu %lu %lu" with
        | none => undefinedBehaviour
        | some (ret, items) =>
          if ret ≠ 7 then do
            ps__set_error_from_errno
            ps__throw_error
          else do
            PS__CHECK_HANDLE ops sys handle
            match items with
            | [.int rss, .int vms, .int shared, .int text, .int lib, .int data, .int dirty] =>
              pure [to_int rss, to_int vms, to_int shared, to_int text, to_int lib,
                to_int data, to_int dirty]
            | _ => undefinedBehaviour

end Source

/-! ## Auxiliary definitions for the statements

None of these is part of the source: they describe inputs (the text of a stat record,
example system states) and the results of the string loops. -/

/-- The strings completed by the null bytes of `rest`, the first one starting with `cur`. -/
def pieces : List Char → List Char → List (List Char)
  | _, [] => []
  | cur, c :: rest => if c = NUL then cur :: pieces [] rest else pieces (cur ++ [c]) rest

/-- A system in which pid 42 exists, with the given stat record and command line;
the kernel booted at second 1000 and counts 100 clock ticks per second. -/
def ex_sys (stat cmdline : String) : Sys where
  read_file := fun pid file =>
    if pid = 42 then
      match file with
      | .stat => .ok stat.toList
      | .cmdline => .ok cmdline.toList
      | .environ => .ok "A=1\x00B=2\x00".toList
      | .status => .ok "Name:\tsh\nUid:\t1000\t1000\t1000\t1000\nGid:\t100\t100\t100\t100\n".toList
      | .statm => .ok "10 20 30 40 50 60 70\n".toList
    else .error ENOENT
  proc_stat := .ok "cpu 1 2 3\nbtime 1000\nprocesses 5\n".toList
  link := fun pid l =>
    if pid = 42 then
      match l with
      | .exe => .ok "/bin/sh".toList
      | .cwd => .ok "/".toList
    else .error ENOENT
  lstat := fun pid => if pid = 42 then none else some ENOENT
  clk_tck := 100
  getpid := 42

/-- A stat record of a process started 500 clock ticks after boot. -/
def ex_record : String :=
  "42 (sh) S 1 42 42 0 -1 4194304 100 0 0 0 7 3 0 0 20 0 1 0 500\n"

/-- The globals after calibration in `ex_sys`. -/
def ex_globals : Globals Dbl := ⟨0, .unset, .fin 1000 1, .fin 100 1⟩

/-- A handle of the process of `ex_record`: created at second 1005. -/
def ex_handle : ps_handle_t Dbl := ⟨42, .fin 1005 1, 0⟩

/-- A handle of an earlier process with pid 42, created at second 1004. -/
def ex_stale_handle : ps_handle_t Dbl := ⟨42, .fin 1004 1, 0⟩

/-- Whether the integer `v` is representable in the object of conversion `k`. -/
def fits (k : Conv) (v : Int) : Bool :=
  if k.signed then decide (-(2 ^ (k.bits - 1) : Int) ≤ v ∧ v < 2 ^ (k.bits - 1))
  else decide (0 ≤ v ∧ v < 2 ^ k.bits)

/-- The decimal text of an integer. -/
def dec (v : Int) : List Char :=
  if v < 0 then '-' :: Nat.toDigits 10 v.natAbs else Nat.toDigits 10 v.natAbs

/-- The text of the twenty fields that follow the command name in a stat record. -/
def stat_fields (st : psl_stat_t) : List Char :=
  st.state :: ' ' :: (dec st.ppid ++ ' ' :: (dec st.pgrp ++ ' ' :: (dec st.session ++
  ' ' :: (dec st.tty_nr ++ ' ' :: (dec st.tpgid ++ ' ' :: (dec st.flags ++
  ' ' :: (dec st.minflt ++ ' ' :: (dec st.cminflt ++ ' ' :: (dec st.majflt ++
  ' ' :: (dec st.cmajflt ++ ' ' :: (dec st.utime ++ ' ' :: (dec st.stime ++
  ' ' :: (dec st.cutime ++ ' ' :: (dec st.cstime ++ ' ' :: (dec st.priority ++
  ' ' :: (dec st.nice ++ ' ' :: (dec st.num_threads ++ ' ' :: (dec st.itrealvalue ++
  ' ' :: dec st.starttime))))))))))))))))))

/-- The stat record `<pid> (<name>) <20 fields>\n`. -/
def stat_record (pid name : List Char) (st : psl_stat_t) : List Char :=
  pid ++ ' ' :: '(' :: (name ++ ')' :: ' ' :: (stat_fields st ++ ['\n']))

/-- Every numeric field is representable in the C type of its struct member. -/
def stat_in_range (st : psl_stat_t) : Bool :=
  fits .d st.ppid && fits .d st.pgrp && fits .d st.session && fits .d st.tty_nr &&
  fits .d st.tpgid && fits .u st.flags && fits .lu st.minflt && fits .lu st.cminflt &&
  fits .lu st.majflt && fits .lu st.cmajflt && fits .lu st.utime && fits .lu st.stime &&
  fits .ld st.cutime && fits .ld st.cstime && fits .ld st.priority && fits .ld st.nice &&
  fits .ld st.num_threads && fits .ld st.itrealvalue && fits .llu st.starttime

/-- Whether the stat record of `pid` is read and is not empty, and `strchr` finds no '(' or
`strrchr` finds no ')' in it. -/
def stat_lacks_paren (sys : Sys) (pid : Int) : Bool :=
  match sys.read_file pid .stat with
  | .error _ => false
  | .ok data =>
    !data.isEmpty &&
      ((strchr (data.set (data.length - 1) NUL) '(').isNone ||
       (strrchr (data.set (data.length - 1) NUL) ')').isNone)

/-- The struct that `ex_record` and `ex_paren_record` parse to. -/
def ex_stat : psl_stat_t :=
  ⟨'S', 1, 42, 42, 0, -1, 4194304, 100, 0, 0, 0, 7, 3, 0, 0, 20, 0, 1, 0, 500⟩

/-- The record of `ex_record` for a process named `(sh) (test)`. -/
def ex_paren_record : String :=
  "42 ((sh) (test)) S 1 42 42 0 -1 4194304 100 0 0 0 7 3 0 0 20 0 1 0 500\n"

/-- The record of `ex_record` for a zombie. -/
def ex_zombie_record : String :=
  "42 (sh) Z 1 42 42 0 -1 4194304 100 0 0 0 7 3 0 0 20 0 1 0 500\n"

/-- The struct that `ex_zombie_record` parses to. -/
def ex_zombie_stat : psl_stat_t :=
  ⟨'Z', 1, 42, 42, 0, -1, 4194304, 100, 0, 0, 0, 7, 3, 0, 0, 20, 0, 1, 0, 500⟩

/-- A handle of a process with pid 7, which does not exist in `ex_sys`. -/
def ex_absent_handle : ps_handle_t Dbl := ⟨7, .fin 1001 1, 0⟩

/-! ## Basic facts about the embedding -/

section Basic
variable {F α β : Type}

@[simp] theorem pure_apply (a : α) (g : Globals F) : (pure a : M F α) g = (.ok a, g) := rfl

@[simp] theorem bind_apply (m : M F α) (f : α → M F β) (g : Globals F) :
    (m >>= f) g = M.bind m f g := rfl

theorem M.bind_ok (m : M F α) (f : α → M F β) (g g1 : Globals F) (a : α)
    (h : m g = (.ok a, g1)) : M.bind m f g = f a g1 := by
  simp [M.bind, h]

@[simp] theorem undefinedBehaviour_apply (g : Globals F) :
    (undefinedBehaviour : M F α) g = (.undefined, g) := rfl

@[simp] theorem r_error_apply (msg : String) (g : Globals F) :
    (r_error msg : M F α) g = (.threw (.r_error msg), g) := rfl

@[simp] theorem ps__throw_error_apply (g : Globals F) :
    (ps__throw_error : M F α) g = (.threw g.last_error, g) := rfl

@[simp] theorem set_last_error_apply (e : PsError) (g : Globals F) :
    set_last_error e g = (.ok (), { g with last_error := e }) := rfl

@[simp] theorem get_errno_apply (g : Globals F) : get_errno g = (.ok g.errno, g) := rfl

@[simp] theorem get_calibration_apply (g : Globals F) :
    get_calibration g = (.ok (g.psll_linux_boot_time, g.psll_linux_clock_ticks), g) := rfl

@[simp] theorem ps__set_error_from_errno_apply (g : Globals F) :
    ps__set_error_from_errno g = (.ok (), { g with last_error := .from_errno g.errno }) := rfl

end Basic

theorem parse_stat_file_fst_indep {F : Type} (sys : Sys) (pid : Int) (g g' : Globals F) :
    (psll__parse_stat_file sys pid g).1 = (psll__parse_stat_file sys pid g').1 := by
  simp only [psll__parse_stat_file, bind_apply, M.bind, ps__read_file]
  cases sys.read_file pid .stat with
  | error e => rfl
  | ok data =>
    simp only
    by_cases h0 : data.length = 0
    · simp [h0]
    · simp only [h0, if_false]
      generalize strchr (data.set (data.length - 1) NUL) '(' = a
      generalize strrchr (data.set (data.length - 1) NUL) ')' = b
      rcases a with _ | l <;> rcases b with _ | r <;> simp [M.bind, ps__set_error]
      by_cases h1 : data.length ≤ r + 2
      · simp [h1]
      · simp only [h1, if_false]
        generalize sscanf _ _ = sc
        rcases sc with _ | ⟨ret, items⟩ <;> simp
        by_cases h2 : ret = -1
        · simp [h2]
        · simp only [h2, if_false]
          by_cases h3 : ret = 20
          · simp only [h3, if_true]
            generalize stat_of_items items = so
            rcases so with _ | st <;> simp
          · simp [h3, M.bind]

theorem parse_stat_file_ok_some {F : Type} (sys : Sys) (pid : Int) (g : Globals F)
    (x : psl_stat_t × List Char)
    (h : (psll__parse_stat_file sys pid g).1 = .ok (some x)) :
    psll__parse_stat_file sys pid g = (.ok (some x), g) := by
  revert h
  simp only [psll__parse_stat_file, bind_apply, M.bind, ps__read_file]
  cases sys.read_file pid .stat with
  | error e => simp
  | ok data =>
    simp only
    by_cases h0 : data.length = 0
    · simp [h0]
    · simp only [h0, if_false]
      generalize strchr (data.set (data.length - 1) NUL) '(' = a
      generalize strrchr (data.set (data.length - 1) NUL) ')' = b
      rcases a with _ | l <;> rcases b with _ | r <;> simp [M.bind, ps__set_error]
      by_cases h1 : data.length ≤ r + 2
      · simp [h1]
      · simp only [h1, if_false]
        generalize sscanf _ _ = sc
        rcases sc with _ | ⟨ret, items⟩ <;> simp
        by_cases h2 : ret = -1
        · simp [h2]
        · simp only [h2, if_false]
          by_cases h3 : ret = 20
          · simp only [h3, if_true]
            generalize stat_of_items items = so
            rcases so with _ | st <;> simp
          · simp [h3, M.bind]

/-! ## The symbolic-link resolver -/

theorem readlink_loop_eq {F : Type} (sys : Sys) (pid : Int) (l : ProcLink) (g : Globals F)
    (target : List Char) (ht : sys.link pid l = .ok target) :
    ∀ (k size : Nat), target.length + 2 - size ≤ k → 2 ≤ size →
      psll__readlink_loop sys pid l size g =
        if target.length = 0 then (.ok none, { g with errno := ENOENT })
        else (.ok (some (target ++ [NUL])), g) := by
  intro k
  induction k with
  | zero =>
    intro size hk hs
    have htk : List.take (size - 1) target = target := by
      apply List.take_of_length_le; omega
    rw [psll__readlink_loop]
    split <;> rename_i h <;> simp only [readlink, ht, htk, Prod.mk.injEq, Outcome.ok.injEq,
      Option.some.injEq, reduceCtorEq, false_and] at h
    obtain ⟨hb, hg⟩ := h
    subst hb hg
    by_cases h0 : target.length = 0
    · simp [h0]
    · have h1 : ¬ target.length < 1 := by omega
      have h2 : target.length < size - 1 := by omega
      simp [h0, h1, h2]
  | succ k ih =>
    intro size hk hs
    rw [psll__readlink_loop]
    split <;> rename_i h <;> simp only [readlink, ht, Prod.mk.injEq, Outcome.ok.injEq,
      Option.some.injEq, reduceCtorEq, false_and] at h
    obtain ⟨hb, hg⟩ := h
    subst hb hg
    by_cases hlt : target.length < size - 1
    · have htk : List.take (size - 1) target = target := by
        apply List.take_of_length_le; omega
      rw [htk]
      by_cases h0 : target.length = 0
      · simp [h0]
      · have h1 : ¬ target.length < 1 := by omega
        simp [h0, h1, hlt]
    · have hl : (List.take (size - 1) target).length = size - 1 := by
        rw [List.length_take]; omega
      have h1 : ¬ (List.take (size - 1) target).length < 1 := by omega
      have h2 : ¬ (List.take (size - 1) target).length < size - 1 := by omega
      simp only [h1, h2, if_false]
      exact ih (size + 1024) (by omega) (by omega)

theorem psll__readlink_eq {F : Type} (sys : Sys) (pid : Int) (l : ProcLink)
    (g : Globals F) :
    psll__readlink sys pid l g =
      match sys.link pid l with
      | .error e => (.ok none, { g with errno := e })
      | .ok target =>
        if target.length = 0 then (.ok none, { g with errno := ENOENT })
        else (.ok (some (target ++ [NUL])), g) := by
  cases ht : sys.link pid l with
  | error e =>
    simp only [psll__readlink]
    rw [psll__readlink_loop]
    split <;> rename_i h <;> simp only [readlink, ht, Prod.mk.injEq, Outcome.ok.injEq,
      Option.some.injEq, reduceCtorEq, false_and, and_false] at h
    obtain ⟨-, hg⟩ := h
    subst hg
    rfl
  | ok target =>
    simp only [psll__readlink]
    exact readlink_loop_eq sys pid l g target ht _ 1024 (le_refl _) (by omega)

/-! ## Lemmas on the accessors, the parser and the scanner -/

/-! ## The identity check -/

section Identity
variable {F : Type} (ops : DoubleOps F) (sys : Sys)

theorem parse_stat_file_at (pid : Int) (g g' : Globals F) (x : psl_stat_t × List Char)
    (h : (psll__parse_stat_file sys pid g).1 = .ok (some x)) :
    psll__parse_stat_file sys pid g' = (.ok (some x), g') := by
  apply parse_stat_file_ok_some
  rw [parse_stat_file_fst_indep sys pid g' g]
  exact h

theorem check_stat_pass (stat : psl_stat_t) (h : ps_handle_t F) (g : Globals F)
    (hid : ops.eq (creation_time ops g.psll_linux_boot_time g.psll_linux_clock_ticks stat)
      h.create_time = true) :
    PS__CHECK_STAT ops stat h g = (.ok (), g) := by
  simp [PS__CHECK_STAT, M.bind, hid]

theorem check_stat_fail (stat : psl_stat_t) (h : ps_handle_t F) (g : Globals F)
    (hid : ops.eq (creation_time ops g.psll_linux_boot_time g.psll_linux_clock_ticks stat)
      h.create_time = false) :
    (PS__CHECK_STAT ops stat h g).1 = .threw (.no_such_process h.pid) := by
  simp [PS__CHECK_STAT, M.bind, hid, ps__no_such_process]

theorem check_handle_pass (stat : psl_stat_t) (name : List Char) (h : ps_handle_t F)
    (g g' : Globals F)
    (hstat : (psll__parse_stat_file sys h.pid g).1 = .ok (some (stat, name)))
    (hid : ops.eq (creation_time ops g'.psll_linux_boot_time g'.psll_linux_clock_ticks stat)
      h.create_time = true) :
    PS__CHECK_HANDLE ops sys h g' = (.ok (), g') := by
  simp [PS__CHECK_HANDLE, M.bind, parse_stat_file_at sys h.pid g g' _ hstat,
    check_stat_pass ops stat h g' hid]

theorem check_for_zombie_zombie (stat : psl_stat_t) (name : List Char) (h : ps_handle_t F)
    (g g' : Globals F) (err : Bool)
    (hstat : (psll__parse_stat_file sys h.pid g).1 = .ok (some (stat, name)))
    (hz : stat.state = 'Z')
    (hid : ops.eq (creation_time ops g'.psll_linux_boot_time g'.psll_linux_clock_ticks stat)
      h.create_time = true) :
    (ps__check_for_zombie ops sys (some h) err g').1 = .threw (.zombie_process h.pid) := by
  simp [ps__check_for_zombie, M.bind, parse_stat_file_at sys h.pid g g' _ hstat, hid, hz,
    ps__zombie_process]

end Identity

theorem pieces_length (rest : List Char) : ∀ cur, (pieces cur rest).length = rest.count NUL := by
  induction rest with
  | nil => intro cur; rfl
  | cons c rest ih =>
    intro cur
    by_cases hc : c = NUL
    · subst hc; simp [pieces, ih]
    · have : (c == NUL) = false := by simpa using hc
      simp [pieces, hc, ih, List.count_cons, this]

theorem string_loop_eq (rest : List Char) :
    ∀ (cur : List Char) (nstr : Nat) (result : List (List Char)),
      nstr + rest.count NUL ≤ result.length →
      string_loop rest cur nstr result =
        some (result.take nstr ++ pieces cur rest ++
          result.drop (nstr + rest.count NUL)) := by
  induction rest with
  | nil => intro cur nstr result _; simp [string_loop, pieces]
  | cons c rest ih =>
    intro cur nstr result hlen
    by_cases hc : c = NUL
    · subst hc
      simp only [List.count_cons_self] at hlen
      have hlt : nstr < result.length := by omega
      simp only [string_loop, if_true, hlt, pieces, List.count_cons_self]
      rw [ih [] (nstr + 1) (result.set nstr cur) (by simp; omega)]
      congr 1
      rw [List.set_eq_take_append_cons_drop, if_pos hlt]
      have h1 : (List.take nstr result).length = nstr := by simp; omega
      rw [List.take_append_eq_append_take, List.take_of_length_le (by omega)]
      simp only [h1, Nat.add_sub_cancel_left, List.take_succ_cons, List.take_zero]
      rw [List.drop_append_eq_append_drop, List.drop_of_length_le (by omega)]
      simp only [h1, List.nil_append]
      have h2 : nstr + 1 + List.count NUL rest - nstr = (List.count NUL rest + 1) := by omega
      rw [h2, List.drop_succ_cons, List.drop_drop]
      simp [Nat.add_comm, Nat.add_left_comm, Nat.add_assoc]
    · have hb : (c == NUL) = false := by simpa using hc
      simp only [List.count_cons, hb] at hlen
      simp only [string_loop, hc, if_false, pieces, List.count_cons, hb]
      exact ih _ _ _ hlen

theorem pieces_flatten (rest : List Char) :
    ∀ cur, rest.getLast? = some NUL →
      ((pieces cur rest).map (· ++ [NUL])).flatten = cur ++ rest := by
  induction rest with
  | nil => intro cur h; simp at h
  | cons c rest ih =>
    intro cur h
    by_cases hc : c = NUL
    · subst hc
      simp only [pieces, if_true, List.map_cons, List.flatten_cons]
      cases rest with
      | nil => simp [pieces]
      | cons d rest' =>
        rw [List.getLast?_cons_cons] at h
        rw [ih [] h]
        simp
    · simp only [pieces, hc, if_false]
      cases rest with
      | nil => simp at h; exact absurd h hc
      | cons d rest' =>
        rw [List.getLast?_cons_cons] at h
        rw [ih _ h]
        simp

theorem pieces_no_nul (rest : List Char) :
    ∀ cur, NUL ∉ cur → ∀ a ∈ pieces cur rest, NUL ∉ a := by
  induction rest with
  | nil => intro cur _ a ha; simp [pieces] at ha
  | cons c rest ih =>
    intro cur hcur a ha
    by_cases hc : c = NUL
    · subst hc
      simp only [pieces, if_true, List.mem_cons] at ha
      rcases ha with rfl | ha
      · exact hcur
      · exact ih [] (by simp) a ha
    · simp only [pieces, hc, if_false] at ha
      refine ih (cur ++ [c]) ?_ a ha
      simp only [List.mem_append, List.mem_singleton, not_or]
      exact ⟨hcur, fun h => hc h.symm⟩

theorem digitsVal_append (xs ys : List Char) :
    ∀ acc, digitsVal acc (xs ++ ys) = digitsVal (digitsVal acc xs) ys := by
  induction xs with
  | nil => intro acc; rfl
  | cons x xs ih => intro acc; exact ih _

theorem digitChar_isdigit (m : Nat) (h : m < 10) :
    isdigit (Nat.digitChar m) = true ∧ digitValue (Nat.digitChar m) = m := by
  interval_cases m <;> decide

theorem toDigitsCore_spec (fuel : Nat) :
    ∀ (n : Nat) (ds : List Char), n < fuel →
      ∃ xs : List Char, Nat.toDigitsCore 10 fuel n ds = xs ++ ds ∧ xs ≠ [] ∧
        (∀ c ∈ xs, isdigit c = true) ∧
        ∀ acc, digitsVal acc xs = acc * 10 ^ xs.length + n := by
  induction fuel with
  | zero => intro n ds h; omega
  | succ fuel ih =>
    intro n ds h
    have hd := digitChar_isdigit (n % 10) (Nat.mod_lt _ (by decide))
    by_cases h0 : n / 10 = 0
    · refine ⟨[Nat.digitChar (n % 10)], ?_, by simp, ?_, ?_⟩
      · simp [Nat.toDigitsCore, h0]
      · intro c hc
        simp only [List.mem_singleton] at hc
        subst hc
        exact hd.1
      · intro acc
        simp only [digitsVal, hd.2, List.length_singleton, pow_one]
        omega
    · obtain ⟨xs, hxs, -, hdig, hval⟩ := ih (n / 10) (Nat.digitChar (n % 10) :: ds) (by omega)
      refine ⟨xs ++ [Nat.digitChar (n % 10)], ?_, by simp, ?_, ?_⟩
      · simp [Nat.toDigitsCore, h0, hxs]
      · intro c hc
        simp only [List.mem_append, List.mem_singleton] at hc
        rcases hc with hc | hc
        · exact hdig c hc
        · subst hc; exact hd.1
      · intro acc
        rw [digitsVal_append, hval]
        simp only [digitsVal, hd.2, List.length_append, List.length_singleton, pow_succ]
        have := Nat.div_add_mod n 10
        nlinarith [this]

theorem toDigits_spec (n : Nat) :
    Nat.toDigits 10 n ≠ [] ∧ (∀ c ∈ Nat.toDigits 10 n, isdigit c = true) ∧
      digitsVal 0 (Nat.toDigits 10 n) = n := by
  obtain ⟨xs, hxs, hne, hdig, hval⟩ := toDigitsCore_spec (n + 1) n [] (by omega)
  simp only [List.append_nil] at hxs
  simp only [Nat.toDigits, hxs]
  exact ⟨hne, hdig, by simpa using hval 0⟩

theorem takeWhile_of_head (p : Char → Bool) (rest : List Char)
    (h : ∀ c ∈ rest.head?, p c = false) :
    rest.takeWhile p = [] ∧ rest.dropWhile p = rest := by
  cases rest with
  | nil => simp
  | cons c r =>
    have := h c (by simp)
    simp [List.takeWhile, List.dropWhile, this]

theorem scanDigits_toDigits (k : Conv) (neg : Bool) (n : Nat) (rest : List Char)
    (hrest : ∀ c ∈ rest.head?, isdigit c = false) :
    scanDigits k neg (Nat.toDigits 10 n ++ rest) = storeInt k neg n rest := by
  obtain ⟨hne, hdig, hval⟩ := toDigits_spec n
  obtain ⟨ht, hd⟩ := takeWhile_of_head isdigit rest hrest
  have h1 : (Nat.toDigits 10 n ++ rest).takeWhile isdigit = Nat.toDigits 10 n := by
    rw [List.takeWhile_append_of_pos hdig, ht, List.append_nil]
  have h2 : (Nat.toDigits 10 n ++ rest).dropWhile isdigit = rest := by
    rw [List.dropWhile_append_of_pos hdig, hd]
  simp only [scanDigits, h1, h2, hval]
  simp [hne]

theorem storeInt_fits (k : Conv) (v : Int) (rest : List Char) (hfit : fits k v = true) :
    storeInt k (decide (v < 0)) v.natAbs rest = .val v rest := by
  cases k <;> simp [fits, Conv.signed, Conv.bits] at hfit <;>
    simp only [storeInt, Conv.signed, Conv.bits, decide_eq_true_eq, Bool.false_eq_true,
      if_false, if_true, Nat.reducePow, Nat.reduceSub] <;>
    split_ifs <;> first | omega | (congr 1; omega)

theorem toDigits_head (n : Nat) :
    ∃ d ds, Nat.toDigits 10 n = d :: ds ∧ isdigit d = true := by
  obtain ⟨hne, hdig, -⟩ := toDigits_spec n
  cases h : Nat.toDigits 10 n with
  | nil => exact absurd h hne
  | cons d ds => exact ⟨d, ds, rfl, hdig d (by simp [h])⟩

theorem scanInt_dec (k : Conv) (v : Int) (rest : List Char) (hfit : fits k v = true)
    (hrest : ∀ c ∈ rest.head?, isdigit c = false) :
    scanInt k (dec v ++ rest) = .val v rest := by
  have hs := storeInt_fits k v rest hfit
  by_cases hneg : v < 0
  · simp only [dec, hneg, if_true, List.cons_append, scanInt]
    rw [scanDigits_toDigits k true _ rest hrest]
    simpa [hneg] using hs
  · obtain ⟨d, ds, hd, hdig⟩ := toDigits_head v.natAbs
    have h1 : d ≠ '-' := by rintro rfl; exact absurd hdig (by decide)
    have h2 : d ≠ '+' := by rintro rfl; exact absurd hdig (by decide)
    have hunf : scanInt k (d :: (ds ++ rest)) = scanDigits k false (d :: (ds ++ rest)) := by
      unfold scanInt
      split
      · rename_i heq; exact absurd heq (by simp)
      · rename_i heq; simp only [List.cons.injEq] at heq; exact absurd heq.1 h1
      · rename_i heq; simp only [List.cons.injEq] at heq; exact absurd heq.1 h2
      · rfl
    simp only [dec, hneg, if_false]
    have := scanDigits_toDigits k false v.natAbs rest hrest
    rw [hd] at this ⊢
    rw [List.cons_append, hunf, ← List.cons_append, this]
    simpa [hneg] using hs

theorem dec_head (v : Int) :
    ∃ d ds, dec v = d :: ds ∧ isspace d = false := by
  by_cases hneg : v < 0
  · exact ⟨'-', Nat.toDigits 10 v.natAbs, by simp [dec, hneg], by decide⟩
  · obtain ⟨d, ds, hd, hdig⟩ := toDigits_head v.natAbs
    refine ⟨d, ds, by simp [dec, hneg, hd], ?_⟩
    cases hsp : isspace d with
    | false => rfl
    | true =>
      simp only [isspace, Bool.or_eq_true, beq_iff_eq] at hsp
      rcases hsp with ((((rfl | rfl) | rfl) | rfl) | rfl) | rfl <;>
        exact absurd hdig (by decide)

theorem scan_space_int (k : Conv) (hk : k ≠ .c) (ds : List Directive) (v : Int)
    (rest : List Char) (acc : List Item) (hfit : fits k v = true)
    (hrest : ∀ c ∈ rest.head?, isdigit c = false) :
    scan (.space :: .conv k :: ds) (' ' :: (dec v ++ rest)) acc =
      scan ds rest (acc ++ [.int v]) := by
  obtain ⟨d, tl, hd, hsp⟩ := dec_head v
  have h1 : (' ' :: (dec v ++ rest)).dropWhile isspace = dec v ++ rest := by
    have : isspace ' ' = true := by decide
    simp [List.dropWhile, this, hd, hsp]
  have h2 : (dec v ++ rest).dropWhile isspace = dec v ++ rest := by
    simp [List.dropWhile, hd, hsp]
  cases k with
  | c => exact absurd rfl hk
  | d => simp only [scan, h1, h2, scanInt_dec _ v rest hfit hrest]
  | u => simp only [scan, h1, h2, scanInt_dec _ v rest hfit hrest]
  | lu => simp only [scan, h1, h2, scanInt_dec _ v rest hfit hrest]
  | ld => simp only [scan, h1, h2, scanInt_dec _ v rest hfit hrest]
  | llu => simp only [scan, h1, h2, scanInt_dec _ v rest hfit hrest]

theorem firstIndexOf_append_cons (c : Char) (P R : List Char) (hP : c ∉ P) :
    firstIndexOf c (P ++ c :: R) = some P.length := by
  induction P with
  | nil => simp [firstIndexOf]
  | cons x P ih =>
    simp only [List.mem_cons, not_or] at hP
    have hx : x ≠ c := fun h => hP.1 h.symm
    simp [firstIndexOf, hx, ih hP.2]

theorem lastIndexOf_of_not_mem (c : Char) (R : List Char) (hR : c ∉ R) :
    lastIndexOf c R = none := by
  induction R with
  | nil => rfl
  | cons x R ih =>
    simp only [List.mem_cons, not_or] at hR
    have hx : x ≠ c := fun h => hR.1 h.symm
    simp [lastIndexOf, hx, ih hR.2]

theorem lastIndexOf_append_cons (c : Char) (P R : List Char) (hR : c ∉ R) :
    lastIndexOf c (P ++ c :: R) = some P.length := by
  induction P with
  | nil => simp [lastIndexOf, lastIndexOf_of_not_mem c R hR]
  | cons x P ih => simp [lastIndexOf, ih]

theorem takeWhile_until_nul (A X : List Char) (hA : NUL ∉ A) :
    (A ++ NUL :: X).takeWhile (fun c => c != NUL) = A := by
  induction A with
  | nil => simp [List.takeWhile]
  | cons x A ih =>
    simp only [List.mem_cons, not_or] at hA
    have hx : (x != NUL) = true := by
      simp only [bne_iff_ne, ne_eq]; exact fun h => hA.1 h.symm
    simp [List.takeWhile, hx, ih hA.2]

theorem set_append_cons (A B : List Char) (x y : Char) :
    (A ++ x :: B).set A.length y = A ++ y :: B := by
  induction A with
  | nil => rfl
  | cons a A ih => simp [List.set, ih]

/-- What `psll__parse_stat_file` computes on a record `P ( N ) ␣ T x`, where `P` has no
'(' and `T` no ')'. -/
theorem stat_buffer_shape (P N T : List Char) (x : Char)
    (hP1 : '(' ∉ P) (hP2 : NUL ∉ P) (hN : NUL ∉ N) (hT1 : ')' ∉ T) (hT2 : NUL ∉ T) :
    let data := P ++ '(' :: (N ++ ')' :: ' ' :: (T ++ [x]))
    let buf := data.set (data.length - 1) NUL
    let l := P.length
    let r := P.length + 1 + N.length
    data.length ≠ 0 ∧ strchr buf '(' = some l ∧ strrchr buf ')' = some r ∧
      ¬ ((buf.set r NUL).length ≤ r + 2) ∧
      cstr (buf.set r NUL) (r + 2) = T ∧ cstr (buf.set r NUL) (l + 1) = N := by
  intro data buf l r
  have hbuf : buf = P ++ '(' :: (N ++ ')' :: ' ' :: (T ++ [NUL])) := by
    have h := set_append_cons (P ++ '(' :: (N ++ ')' :: ' ' :: T)) [] x NUL
    simp only [List.append_assoc, List.cons_append, List.length_append, List.length_cons,
      List.nil_append] at h
    simp only [buf, data, List.length_append, List.length_cons, List.length_nil]
    rw [← h]
    congr 1
  have hA : NUL ∉ P ++ '(' :: (N ++ ')' :: ' ' :: T) := by
    simp only [List.mem_append, List.mem_cons, not_or]
    refine ⟨hP2, by decide, hN, by decide, by decide, hT2⟩
  have hcstr : cstr buf 0 = P ++ '(' :: (N ++ ')' :: ' ' :: T) := by
    have := takeWhile_until_nul _ [] hA
    simp only [List.append_assoc, List.cons_append] at this
    simp only [cstr, List.drop_zero, hbuf]
    exact this
  have hset : buf.set r NUL = (P ++ '(' :: N) ++ NUL :: ' ' :: (T ++ [NUL]) := by
    have h := set_append_cons (P ++ '(' :: N) (' ' :: (T ++ [NUL])) ')' NUL
    simp only [List.append_assoc, List.cons_append, List.length_append, List.length_cons] at h
    simp only [hbuf, r, List.append_assoc, List.cons_append]
    rw [show P.length + 1 + N.length = P.length + (N.length + 1) by omega]
    exact h
  refine ⟨by simp [data], ?_, ?_, ?_, ?_, ?_⟩
  · simp only [strchr, hcstr]
    exact firstIndexOf_append_cons '(' P _ hP1
  · simp only [strrchr, hcstr]
    have h := lastIndexOf_append_cons ')' (P ++ '(' :: N) (' ' :: T)
      (by simp only [List.mem_cons, not_or]; exact ⟨by decide, hT1⟩)
    simp only [List.append_assoc, List.cons_append, List.length_append, List.length_cons] at h
    rw [show r = P.length + (N.length + 1) by simp only [r]; omega]
    exact h
  · simp only [hset, r, List.length_append, List.length_cons, List.length_nil]
    omega
  · have hd : (buf.set r NUL).drop (r + 2) = T ++ NUL :: [] := by
      rw [hset]
      have : r + 2 = ((P ++ '(' :: N) ++ [NUL, ' ']).length := by
        simp only [r, List.length_append, List.length_cons, List.length_nil]
        omega
      rw [this]
      have h2 : (P ++ '(' :: N) ++ NUL :: ' ' :: (T ++ [NUL]) =
          ((P ++ '(' :: N) ++ [NUL, ' ']) ++ (T ++ [NUL]) := by simp
      rw [h2, List.drop_left]
    simp only [cstr, hd]
    exact takeWhile_until_nul T [] hT2
  · have hd : (buf.set r NUL).drop (l + 1) = N ++ NUL :: ' ' :: (T ++ [NUL]) := by
      rw [hset]
      have : l + 1 = (P ++ ['(']).length := by simp [l]
      rw [this]
      have h2 : (P ++ '(' :: N) ++ NUL :: ' ' :: (T ++ [NUL]) =
          (P ++ ['(']) ++ (N ++ NUL :: ' ' :: (T ++ [NUL])) := by simp
      rw [h2, List.drop_left]
    simp only [cstr, hd]
    exact takeWhile_until_nul N _ hN

theorem dec_chars (v : Int) : ∀ c ∈ dec v, c ≠ ')' ∧ c ≠ NUL := by
  have hd : ∀ c ∈ Nat.toDigits 10 v.natAbs, c ≠ ')' ∧ c ≠ NUL := by
    intro c hc
    have := (toDigits_spec v.natAbs).2.1 c hc
    constructor <;> (rintro rfl; exact absurd this (by decide))
  intro c hc
  by_cases hneg : v < 0
  · simp only [dec, hneg, if_true, List.mem_cons] at hc
    rcases hc with rfl | hc
    · exact ⟨by decide, by decide⟩
    · exact hd c hc
  · simp only [dec, hneg, if_false] at hc
    exact hd c hc

theorem scan_space_int_cons (k : Conv) (hk : k ≠ .c) (ds : List Directive) (v : Int)
    (rest : List Char) (acc : List Item) (hfit : fits k v = true) :
    scan (.space :: .conv k :: ds) (' ' :: (dec v ++ ' ' :: rest)) acc =
      scan ds (' ' :: rest) (acc ++ [.int v]) :=
  scan_space_int k hk ds v _ acc hfit (by intro c hc; simp at hc; subst hc; decide)

theorem scan_space_int_nil (k : Conv) (hk : k ≠ .c) (ds : List Directive) (v : Int)
    (acc : List Item) (hfit : fits k v = true) :
    scan (.space :: .conv k :: ds) (' ' :: dec v) acc = scan ds [] (acc ++ [.int v]) := by
  have := scan_space_int k hk ds v [] acc hfit (by simp)
  simpa using this

theorem scan_chr (ds : List Directive) (ch : Char) (rest : List Char) (acc : List Item) :
    scan (.conv .c :: ds) (ch :: rest) acc = scan ds rest (acc ++ [.chr ch]) := by
  simp only [scan]

theorem scan_done (s : List Char) (acc : List Item) :
    scan [] s acc = some ((acc.length : Int), acc) := by
  simp only [scan]

theorem stat_format :
    parseFormat
      "%c %d %d %d %d %d %u %lu %lu %lu %lu %lu %lu %ld %ld %ld %ld %ld %ld %llu".toList =
    some [.conv .c, .space, .conv .d, .space, .conv .d, .space, .conv .d, .space, .conv .d,
      .space, .conv .d, .space, .conv .u, .space, .conv .lu, .space, .conv .lu, .space,
      .conv .lu, .space, .conv .lu, .space, .conv .lu, .space, .conv .lu, .space, .conv .ld,
      .space, .conv .ld, .space, .conv .ld, .space, .conv .ld, .space, .conv .ld, .space,
      .conv .ld, .space, .conv .llu] := by decide

theorem sscanf_stat_fields (st : psl_stat_t) (hrange : stat_in_range st = true) :
    ∃ items, sscanf (stat_fields st)
      "%c %d %d %d %d %d %u %lu %lu %lu %lu %lu %lu %ld %ld %ld %ld %ld %ld %llu" =
        some (20, items) ∧ stat_of_items items = some st := by
  obtain ⟨state, ppid, pgrp, session, tty_nr, tpgid, flags, minflt, cminflt, majflt, cmajflt,
    utime, stime, cutime, cstime, priority, nice, num_threads, itrealvalue, starttime⟩ := st
  simp only [stat_in_range, Bool.and_eq_true] at hrange
  obtain ⟨⟨⟨⟨⟨⟨⟨⟨⟨⟨⟨⟨⟨⟨⟨⟨⟨⟨h1, h2⟩, h3⟩, h4⟩, h5⟩, h6⟩, h7⟩, h8⟩, h9⟩, h10⟩, h11⟩, h12⟩, h13⟩,
    h14⟩, h15⟩, h16⟩, h17⟩, h18⟩, h19⟩ := hrange
  refine ⟨[.chr state, .int ppid, .int pgrp, .int session, .int tty_nr, .int tpgid,
    .int flags, .int minflt, .int cminflt, .int majflt, .int cmajflt, .int utime, .int stime,
    .int cutime, .int cstime, .int priority, .int nice, .int num_threads, .int itrealvalue,
    .int starttime], ?_, ?_⟩
  · simp only [sscanf, stat_format, stat_fields]
    rw [scan_chr, scan_space_int_cons _ (by decide) _ _ _ _ h1, scan_space_int_cons _ (by decide) _ _ _ _ h2,
      scan_space_int_cons _ (by decide) _ _ _ _ h3, scan_space_int_cons _ (by decide) _ _ _ _ h4,
      scan_space_int_cons _ (by decide) _ _ _ _ h5, scan_space_int_cons _ (by decide) _ _ _ _ h6,
      scan_space_int_cons _ (by decide) _ _ _ _ h7, scan_space_int_cons _ (by decide) _ _ _ _ h8,
      scan_space_int_cons _ (by decide) _ _ _ _ h9, scan_space_int_cons _ (by decide) _ _ _ _ h10,
      scan_space_int_cons _ (by decide) _ _ _ _ h11, scan_space_int_cons _ (by decide) _ _ _ _ h12,
      scan_space_int_cons _ (by decide) _ _ _ _ h13, scan_space_int_cons _ (by decide) _ _ _ _ h14,
      scan_space_int_cons _ (by decide) _ _ _ _ h15, scan_space_int_cons _ (by decide) _ _ _ _ h16,
      scan_space_int_cons _ (by decide) _ _ _ _ h17, scan_space_int_cons _ (by decide) _ _ _ _ h18,
      scan_space_int_nil _ (by decide) _ _ _ h19]
    rw [scan_done]
    simp only [List.nil_append, List.cons_append, List.length_cons, List.length_nil]
    rfl
  · simp only [stat_of_items]

theorem stat_fields_chars (st : psl_stat_t) (hstate : st.state ≠ ')' ∧ st.state ≠ NUL) :
    ')' ∉ stat_fields st ∧ NUL ∉ stat_fields st := by
  have key : ∀ c ∈ stat_fields st, c ≠ ')' ∧ c ≠ NUL := by
    intro c hc
    simp only [stat_fields, List.mem_cons, List.mem_append] at hc
    have hsp : (' ' : Char) ≠ ')' ∧ (' ' : Char) ≠ NUL := ⟨by decide, by decide⟩
    casesm* _ ∨ _
    all_goals
      first
      | exact dec_chars _ c ‹_›
      | (subst_vars; exact hstate)
      | (subst_vars; exact hsp)
  exact ⟨fun h => (key _ h).1 rfl, fun h => (key _ h).2 rfl⟩

theorem parse_stat_file_read_error {F : Type} (sys : Sys) (pid : Int) (g : Globals F)
    (e : Int) (h : sys.read_file pid .stat = .error e) :
    psll__parse_stat_file sys pid g = (.ok none, { g with errno := e }) := by
  simp [psll__parse_stat_file, M.bind, ps__read_file, h]

theorem parse_stat_file_threw_iff {F : Type} (sys : Sys) (pid : Int) (g : Globals F)
    (e : PsError) :
    (psll__parse_stat_file sys pid g).1 = .threw e ↔
      e = .message "Cannot parse stat file" ∧ stat_lacks_paren sys pid = true := by
  simp only [psll__parse_stat_file, bind_apply, M.bind, ps__read_file, stat_lacks_paren]
  cases hread : sys.read_file pid .stat with
  | error e => simp
  | ok data =>
    simp only
    by_cases h0 : data.length = 0
    · have : data = [] := List.length_eq_zero.mp h0
      simp [h0, this]
    · have hne : data ≠ [] := fun h => h0 (by simp [h])
      have hemp : data.isEmpty = false := by
        cases data with
        | nil => exact absurd rfl hne
        | cons _ _ => rfl
      simp only [h0, if_false, hemp, Bool.not_false, Bool.true_and]
      generalize strchr (data.set (data.length - 1) NUL) '(' = a
      generalize strrchr (data.set (data.length - 1) NUL) ')' = b
      rcases a with _ | l <;> rcases b with _ | r <;>
        simp [M.bind, ps__set_error, eq_comm]
      by_cases h1 : data.length ≤ r + 2
      · simp [h1]
      · simp only [h1, if_false]
        generalize sscanf _ _ = sc
        rcases sc with _ | ⟨ret, items⟩ <;> simp
        by_cases h2 : ret = -1
        · simp [h2]
        · simp only [h2, if_false]
          by_cases h3 : ret = 20
          · simp only [h3, if_true]
            generalize stat_of_items items = so
            rcases so with _ | st <;> simp
          · simp [h3, M.bind]

theorem get_boot_time_no_throw {F : Type} (ops : DoubleOps F) (sys : Sys) (g : Globals F)
    (e : PsError) : (psll_linux_get_boot_time ops sys g).1 ≠ .threw e := by
  simp only [psll_linux_get_boot_time, bind_apply, M.bind, ps__read_proc_stat]
  cases sys.proc_stat with
  | error e => simp
  | ok data =>
    simp only
    by_cases h0 : data.length = 0
    · simp [h0]
    · simp only [h0, if_false]
      generalize ps__memmem _ _ = hit
      rcases hit with _ | hit <;> simp
      generalize sscanf _ _ = sc
      rcases sc with _ | ⟨ret, items⟩ <;> simp
      by_cases h1 : ret = 1
      · simp only [h1, if_true]
        rcases items with _ | ⟨i, _ | ⟨j, tl⟩⟩ <;> try simp
        cases i <;> simp
      · simp [h1]

/-- The lazy calibration of `psll_linux_ctime` after a successful parse. -/
theorem linux_ctime_of_parse {F : Type} (ops : DoubleOps F) (sys : Sys) (pid : Int)
    (g : Globals F) (x : psl_stat_t × List Char)
    (hp : (psll__parse_stat_file sys pid g).1 = .ok (some x)) :
    psll_linux_ctime ops sys pid g =
      match (if ops.isZero g.psll_linux_boot_time then psll_linux_get_boot_time ops sys g
             else (.ok 0, g)) with
      | (.ok ret, g1) =>
        if ret ≠ 0 then (.ok none, g1)
        else if ops.isZero g1.psll_linux_clock_ticks then
          (.ok (some (creation_time ops g1.psll_linux_boot_time (ops.ofInt sys.clk_tck) x.1)),
            { g1 with psll_linux_clock_ticks := ops.ofInt sys.clk_tck })
        else
          (.ok (some (creation_time ops g1.psll_linux_boot_time g1.psll_linux_clock_ticks x.1)),
            g1)
      | (.threw e, g1) => (.threw e, g1)
      | (.undefined, g1) => (.undefined, g1) := by
  have hp' := parse_stat_file_ok_some sys pid g x hp
  obtain ⟨st, nm⟩ := x
  simp only [psll_linux_ctime, bind_apply, M.bind, hp', get_calibration_apply]
  by_cases hz : ops.isZero g.psll_linux_boot_time = true
  · simp only [hz, if_true]
    rcases psll_linux_get_boot_time ops sys g with ⟨o, g1⟩
    rcases o with ret | e | _ <;> simp only []
    by_cases hr : ret = 0
    · simp only [hr, ne_eq, not_true_eq_false, if_false, bind_apply, M.bind,
        get_calibration_apply]
      by_cases hz2 : ops.isZero g1.psll_linux_clock_ticks = true
      · simp [hz2, psll_linux_get_clock_ticks, M.bind]
      · simp [hz2, M.bind]
    · simp [hr]
  · simp only [hz, if_false, pure_apply, ne_eq, not_true_eq_false, bind_apply, M.bind,
      get_calibration_apply, Bool.false_eq_true]
    by_cases hz2 : ops.isZero g.psll_linux_clock_ticks = true
    · simp [hz2, psll_linux_get_clock_ticks, M.bind]
    · simp [hz2, M.bind]

theorem is_running_of_ctime {F : Type} (ops : DoubleOps F) (sys : Sys) (h : ps_handle_t F)
    (g : Globals F) :
    (psll_is_running ops sys (some h) g).1 =
      match (psll_linux_ctime ops sys h.pid g).1 with
      | .ok none => .ok false
      | .ok (some ctime) => .ok (ops.eq ctime h.create_time)
      | .threw e => .threw e
      | .undefined => .undefined := by
  simp only [psll_is_running, bind_apply, M.bind]
  rcases psll_linux_ctime ops sys h.pid g with ⟨o, g1⟩
  rcases o with (_ | c) | e | _ <;> rfl

theorem linux_ctime_of_parse_fail {F : Type} (ops : DoubleOps F) (sys : Sys) (pid : Int)
    (g : Globals F) :
    ((psll__parse_stat_file sys pid g).1 = .ok none →
      (psll_linux_ctime ops sys pid g).1 = .ok none) ∧
    (∀ e, (psll__parse_stat_file sys pid g).1 = .threw e →
      (psll_linux_ctime ops sys pid g).1 = .threw e) ∧
    ((psll__parse_stat_file sys pid g).1 = .undefined →
      (psll_linux_ctime ops sys pid g).1 = .undefined) := by
  simp only [psll_linux_ctime, bind_apply, M.bind]
  rcases psll__parse_stat_file sys pid g with ⟨o', g1⟩
  rcases o' with (_ | x) | e | _ <;> simp

theorem format_of_parse {F : Type} (sys : Sys) (h : ps_handle_t F) (g : Globals F) :
    (psll_format sys (some h) g).1 =
      match (psll__parse_stat_file sys h.pid g).1 with
      | .ok none => .ok ("???".toList, h.pid, h.create_time, "terminated")
      | .ok (some (stat, cname)) =>
        .ok (cname, h.pid, h.create_time, (PS__GET_STATUS stat.state).getD "unknown")
      | .threw e => .threw e
      | .undefined => .undefined := by
  simp only [psll_format, bind_apply, M.bind]
  rcases psll__parse_stat_file sys h.pid g with ⟨o, g1⟩
  rcases o with (_ | ⟨stat, cname⟩) | e | _ <;> rfl

/-! ## The claims -/

/-- Claim C1 (fails on the code): a handle of an earlier process with pid 42 (created at
second 1004) is queried after the pid was reused by a process created at second 1005.
`psll_name` detects the reuse and fails with `NoSuchProcess(42)`, but `psll_environ` and
`psll_exe` perform no identity check after a successful read: they return the environment
and the executable path of the new process. -/
theorem pid_reuse_undetected_by_environ_and_exe :
    (psll_name Dbl.ops (ex_sys ex_record "sh\x00") (some ex_stale_handle) ex_globals).1
      = .threw (.no_such_process 42) ∧
    (psll_environ Dbl.ops (ex_sys ex_record "sh\x00") (some ex_stale_handle) ex_globals).1
      = .ok ["A=1".toList, "B=2".toList] ∧
    (psll_exe Dbl.ops (ex_sys ex_record "sh\x00") (some ex_stale_handle) ex_globals).1
      = .ok (some "/bin/sh".toList) := by
  refine ⟨by decide, by decide, ?_⟩
  simp only [psll_exe, bind_apply, M.bind, psll__readlink_eq]
  decide

/-- Claim C2 (counterexample): on a stat record without parentheses `psll_is_running`
does not return a boolean, it raises "Cannot parse stat file". -/
theorem psll_is_running_raises_without_parens :
    stat_lacks_paren (ex_sys "42 sh S 1\n" "sh\x00") ex_handle.pid = true ∧
    (psll_is_running Dbl.ops (ex_sys "42 sh S 1\n" "sh\x00") (some ex_handle) ex_globals).1
      = .threw (.message "Cannot parse stat file") := by decide

/-- Claim C2 (amended): `psll_is_running` raises an error exactly when the stat record of
the handle's pid is read, is not empty and contains no '(' or no ')', and then the error is
"Cannot parse stat file". It returns `false` when the stat record cannot be read, when
`psll__parse_stat_file` returns failure, and when the boot-time calibration fails. When the
record is parsed and the calibration succeeds it returns whether boot time + starttime /
clock ticks equals the stored creation time, whatever the run state (also for a zombie). -/
theorem psll_is_running_amended {F : Type} (ops : DoubleOps F) (sys : Sys)
    (h : ps_handle_t F) (g : Globals F) :
    (∀ e, (psll_is_running ops sys (some h) g).1 = .threw e ↔
      e = .message "Cannot parse stat file" ∧ stat_lacks_paren sys h.pid = true) ∧
    (∀ e, sys.read_file h.pid .stat = .error e →
      (psll_is_running ops sys (some h) g).1 = .ok false) ∧
    ((psll__parse_stat_file sys h.pid g).1 = .ok none →
      (psll_is_running ops sys (some h) g).1 = .ok false) ∧
    (∀ stat name, (psll__parse_stat_file sys h.pid g).1 = .ok (some (stat, name)) →
      (∀ ret, ops.isZero g.psll_linux_boot_time = true →
        (psll_linux_get_boot_time ops sys g).1 = .ok ret → ret ≠ 0 →
        (psll_is_running ops sys (some h) g).1 = .ok false) ∧
      (∀ g1, (if ops.isZero g.psll_linux_boot_time then psll_linux_get_boot_time ops sys g
              else (.ok 0, g)) = (.ok 0, g1) →
        (psll_is_running ops sys (some h) g).1 =
          .ok (ops.eq (creation_time ops g1.psll_linux_boot_time
            (if ops.isZero g1.psll_linux_clock_ticks then ops.ofInt sys.clk_tck
             else g1.psll_linux_clock_ticks) stat) h.create_time))) := by
  have hnone : (psll__parse_stat_file sys h.pid g).1 = .ok none →
      (psll_is_running ops sys (some h) g).1 = .ok false := by
    intro hp
    rw [is_running_of_ctime, (linux_ctime_of_parse_fail ops sys h.pid g).1 hp]
  refine ⟨?_, ?_, hnone, ?_⟩
  · intro e
    rw [← parse_stat_file_threw_iff sys h.pid g e, is_running_of_ctime]
    rcases hq : (psll__parse_stat_file sys h.pid g).1 with (_ | x) | e' | _
    · rw [(linux_ctime_of_parse_fail ops sys h.pid g).1 hq]
      simp
    · rw [linux_ctime_of_parse ops sys h.pid g x hq]
      by_cases hz : ops.isZero g.psll_linux_boot_time = true
      · simp only [hz, if_true]
        have hnt := get_boot_time_no_throw ops sys g
        rcases hb : psll_linux_get_boot_time ops sys g with ⟨o, g1⟩
        rw [hb] at hnt
        rcases o with ret | e'' | _
        · simp only []
          split_ifs <;> simp
        · exact absurd rfl (hnt e'')
        · simp
      · rw [if_neg hz]
        simp only [ne_eq, not_true_eq_false, if_false]
        split_ifs <;> simp
    · rw [(linux_ctime_of_parse_fail ops sys h.pid g).2.1 e' hq]
      simp
    · rw [(linux_ctime_of_parse_fail ops sys h.pid g).2.2 hq]
      simp
  · intro e he
    apply hnone
    rw [parse_stat_file_read_error sys h.pid g e he]
  · intro stat name hp
    constructor
    · intro ret hz hb hret
      rw [is_running_of_ctime, linux_ctime_of_parse ops sys h.pid g _ hp]
      simp only [hz, if_true]
      rcases hq : psll_linux_get_boot_time ops sys g with ⟨o, g1⟩
      rw [hq] at hb
      simp only at hb
      subst hb
      simp [hret]
    · intro g1 hcal
      rw [is_running_of_ctime, linux_ctime_of_parse ops sys h.pid g _ hp, hcal]
      simp only [ne_eq, not_true_eq_false, if_false]
      split_ifs <;> rfl

/-- Witness of C2 (amended): a zombie whose creation time is unchanged is reported as
running, starting from the uncalibrated globals; a pid without stat record is reported
as not running. -/
theorem psll_is_running_amended_witness :
    (psll__parse_stat_file (ex_sys ex_zombie_record "") ex_handle.pid
        (Globals.initial Dbl.ops)).1 = .ok (some (ex_zombie_stat, "sh".toList)) ∧
    (if Dbl.ops.isZero (Globals.initial Dbl.ops).psll_linux_boot_time
      then psll_linux_get_boot_time Dbl.ops (ex_sys ex_zombie_record "")
        (Globals.initial Dbl.ops)
      else (.ok 0, Globals.initial Dbl.ops)) =
        (.ok 0, { Globals.initial Dbl.ops with psll_linux_boot_time := .fin 1000 1 }) ∧
    (psll_is_running Dbl.ops (ex_sys ex_zombie_record "") (some ex_handle)
        (Globals.initial Dbl.ops)).1 = .ok true ∧
    (ex_sys ex_record "").read_file ex_absent_handle.pid .stat = .error ENOENT ∧
    (psll_is_running Dbl.ops (ex_sys ex_record "") (some ex_absent_handle) ex_globals).1
      = .ok false :=
  ⟨by decide, by decide,
    (((psll_is_running_amended Dbl.ops (ex_sys ex_zombie_record "") ex_handle
      (Globals.initial Dbl.ops)).2.2.2 ex_zombie_stat "sh".toList (by decide)).2
        { Globals.initial Dbl.ops with psll_linux_boot_time := .fin 1000 1 }
        (by decide)).trans (by decide),
    rfl,
    (psll_is_running_amended Dbl.ops (ex_sys ex_record "") ex_absent_handle
      ex_globals).2.1 ENOENT rfl⟩

/-- Claim C3 (fails on the code): when the original read failed with permission denied
(`EACCES` or `EPERM`), `ps__wrap_linux_error` does not signal `AccessDenied`: it takes the
final `else` branch and signals the generic OS failure carrying that errno. -/
theorem ps__wrap_linux_error_read_permission_denied {F : Type} (sys : Sys)
    (h : ps_handle_t F) (g : Globals F) :
    (ps__wrap_linux_error sys h { g with errno := EACCES }).1 = .threw (.from_errno EACCES) ∧
    (ps__wrap_linux_error sys h { g with errno := EPERM }).1 = .threw (.from_errno EPERM) := by
  constructor <;> simp [ps__wrap_linux_error, M.bind, EACCES, EPERM, ENOENT, ESRCH]

/-- Claim C4 (fails on the code): for the command line "a b c" (no trailing null byte)
and a handle that passes the identity check, `psll_cmdline` counts the two spaces but
splits at null bytes only: it returns two empty strings, not "a", "b", "c". -/
theorem psll_cmdline_space_fallback_blank :
    (psll_cmdline Dbl.ops (ex_sys ex_record "a b c") (some ex_handle) ex_globals).1
      = .ok [[], []] := by decide

/-- Claim C5: for every non-empty command-line blob whose last byte is a null byte, read for
a handle that passes the identity check, `psll_cmdline` returns strings `args` that contain
no null byte, one per null byte of the blob, such that the strings, each followed by a null
byte, concatenate to the blob: they are the byte strings between consecutive null bytes, in
the original order. -/
theorem psll_cmdline_null_split {F : Type} (ops : DoubleOps F) (sys : Sys)
    (h : ps_handle_t F) (g : Globals F) (blob : List Char) (stat : psl_stat_t)
    (name : List Char)
    (hread : sys.read_file h.pid .cmdline = .ok blob)
    (hlast : blob.getLast? = some NUL)
    (hstat : (psll__parse_stat_file sys h.pid g).1 = .ok (some (stat, name)))
    (hid : ops.eq (creation_time ops g.psll_linux_boot_time g.psll_linux_clock_ticks stat)
      h.create_time = true) :
    ∃ args : List (List Char),
      psll_cmdline ops sys (some h) g = (.ok args, g) ∧
      (args.map (· ++ [NUL])).flatten = blob ∧
      (∀ a ∈ args, NUL ∉ a) ∧
      args.length = blob.count NUL := by
  refine ⟨pieces [] blob, ?_, ?_, ?_, ?_⟩
  · have hne : blob ≠ [] := by rintro rfl; simp at hlast
    have hpos : ¬ ((blob.length : Int) ≤ 0) := by
      have : 0 < blob.length := List.length_pos.mpr hne
      omega
    have hloop := string_loop_eq blob [] 0 (List.replicate (blob.count NUL) [])
      (by simp)
    simp only [List.take_zero, List.nil_append, Nat.zero_add, List.drop_replicate,
      Nat.sub_self, List.replicate_zero, List.append_nil] at hloop
    simp [psll_cmdline, M.bind, ps__read_file, hread, ret_of, hpos,
      check_handle_pass ops sys stat name h g g hstat hid, hlast, hloop]
  · simpa using pieces_flatten blob [] hlast
  · exact pieces_no_nul blob [] (by simp)
  · exact pieces_length blob []

/-- Witness of C5: the command line "a\0b\0c\0" of the example process. -/
theorem psll_cmdline_null_split_witness :
    (ex_sys ex_record "a\x00b\x00c\x00").read_file ex_handle.pid .cmdline
      = .ok "a\x00b\x00c\x00".toList ∧
    "a\x00b\x00c\x00".toList.getLast? = some NUL ∧
    (psll__parse_stat_file (ex_sys ex_record "a\x00b\x00c\x00") ex_handle.pid ex_globals).1
      = .ok (some (ex_stat, "sh".toList)) ∧
    Dbl.ops.eq (creation_time Dbl.ops ex_globals.psll_linux_boot_time
      ex_globals.psll_linux_clock_ticks ex_stat) ex_handle.create_time = true ∧
    (∃ args : List (List Char),
      psll_cmdline Dbl.ops (ex_sys ex_record "a\x00b\x00c\x00") (some ex_handle) ex_globals
        = (.ok args, ex_globals) ∧
      (args.map (· ++ [NUL])).flatten = "a\x00b\x00c\x00".toList ∧
      (∀ a ∈ args, NUL ∉ a) ∧
      args.length = "a\x00b\x00c\x00".toList.count NUL) ∧
    (psll_cmdline Dbl.ops (ex_sys ex_record "a\x00b\x00c\x00") (some ex_handle) ex_globals).1
      = .ok ["a".toList, "b".toList, "c".toList] :=
  ⟨rfl, by decide, by decide, by decide,
    psll_cmdline_null_split Dbl.ops (ex_sys ex_record "a\x00b\x00c\x00") ex_handle ex_globals
      "a\x00b\x00c\x00".toList ex_stat "sh".toList rfl (by decide) (by decide)
      (by decide),
    by decide⟩

/-- Claim C6: for every stat record `<pid> (<name>) <20 fields>\n`, where the command name
is any byte string without a null byte (it may contain spaces and parentheses), the run
state is any byte other than ')' and the null byte, and the nineteen numbers are the
decimal texts of values representable in their struct members, `psll__parse_stat_file`
returns success, reports exactly `<name>` as the command name, stores every field in the
struct member of its position, and leaves the globals unchanged. -/
theorem psll__parse_stat_file_record {F : Type} (sys : Sys) (pid : Int) (g : Globals F)
    (pidtxt name : List Char) (st : psl_stat_t)
    (hread : sys.read_file pid .stat = .ok (stat_record pidtxt name st))
    (hpid : ∀ c ∈ pidtxt, isdigit c = true)
    (hname : NUL ∉ name)
    (hstate : st.state ≠ ')' ∧ st.state ≠ NUL)
    (hrange : stat_in_range st = true) :
    psll__parse_stat_file sys pid g = (.ok (some (st, name)), g) := by
  have hP1 : '(' ∉ pidtxt ++ [' '] := by
    simp only [List.mem_append, List.mem_singleton, not_or]
    exact ⟨fun h => absurd (hpid _ h) (by decide), by decide⟩
  have hP2 : NUL ∉ pidtxt ++ [' '] := by
    simp only [List.mem_append, List.mem_singleton, not_or]
    exact ⟨fun h => absurd (hpid _ h) (by decide), by decide⟩
  obtain ⟨hT1, hT2⟩ := stat_fields_chars st hstate
  have hshape := stat_buffer_shape (pidtxt ++ [' ']) name (stat_fields st) '\n'
    hP1 hP2 hname hT1 hT2
  have hrec : stat_record pidtxt name st =
      (pidtxt ++ [' ']) ++ '(' :: (name ++ ')' :: ' ' :: (stat_fields st ++ ['\n'])) := by
    simp [stat_record]
  simp only [← hrec] at hshape
  obtain ⟨h0, hl, hr, hlen, hfields, hnm⟩ := hshape
  obtain ⟨items, hscan, hitems⟩ := sscanf_stat_fields st hrange
  simp only [psll__parse_stat_file, bind_apply, M.bind, ps__read_file, hread, h0, if_false,
    hl, hr, hlen, hfields, hnm, hscan, hitems, pure_apply]
  simp

/-- Witness of C6: the record of a process named `(sh) (test)`. -/
theorem psll__parse_stat_file_record_witness :
    (ex_sys ex_paren_record "").read_file 42 .stat
      = .ok (stat_record "42".toList "(sh) (test)".toList ex_stat) ∧
    (∀ c ∈ "42".toList, isdigit c = true) ∧
    NUL ∉ "(sh) (test)".toList ∧
    (ex_stat.state ≠ ')' ∧ ex_stat.state ≠ NUL) ∧
    stat_in_range ex_stat = true ∧
    psll__parse_stat_file (ex_sys ex_paren_record "") 42 ex_globals
      = (.ok (some (ex_stat, "(sh) (test)".toList)), ex_globals) :=
  ⟨rfl, by decide, by decide, by decide, by decide,
    psll__parse_stat_file_record (ex_sys ex_paren_record "") 42 ex_globals "42".toList
      "(sh) (test)".toList ex_stat rfl (by decide) (by decide) (by decide)
      (by decide)⟩

/-- Claim C7 (fails on the code): on the stat record "42 (sh) S 1" only 2 of the 20 fields
parse; `psll__parse_stat_file` stores the error "Cannot parse stat file, parsed: 2/20
fields" and returns failure, but the accessors then call `ps__wrap_linux_error`, which
replaces the stored error by the one derived from `errno` (here 0): name, ppid, status,
terminal, num_threads and cpu_times fail with the generic OS failure, not with the parse
failure. -/
theorem stat_accessors_drop_parse_failure :
    psll__parse_stat_file (ex_sys "42 (sh) S 1\n" "sh\x00") 42 ex_globals
      = (.ok none, { ex_globals with last_error := .parsed_fields 2 }) ∧
    (psll_name Dbl.ops (ex_sys "42 (sh) S 1\n" "sh\x00") (some ex_handle) ex_globals).1
      = .threw (.from_errno 0) ∧
    (psll_ppid Dbl.ops (ex_sys "42 (sh) S 1\n" "sh\x00") (some ex_handle) ex_globals).1
      = .threw (.from_errno 0) ∧
    (psll_status Dbl.ops (ex_sys "42 (sh) S 1\n" "sh\x00") (some ex_handle) ex_globals).1
      = .threw (.from_errno 0) ∧
    (psll_terminal Dbl.ops (ex_sys "42 (sh) S 1\n" "sh\x00") (some ex_handle) ex_globals).1
      = .threw (.from_errno 0) ∧
    (psll_num_threads Dbl.ops (ex_sys "42 (sh) S 1\n" "sh\x00") (some ex_handle) ex_globals).1
      = .threw (.from_errno 0) ∧
    (psll_cpu_times Dbl.ops (ex_sys "42 (sh) S 1\n" "sh\x00") (some ex_handle) ex_globals).1
      = .threw (.from_errno 0) := by
  refine ⟨by decide, by decide, by decide, by decide, by decide, by decide, by decide⟩

/-- Zombie detection relative to the calibration globals as they are at the call: when the
stat record parses with run state 'Z' and the creation time computed from the current
values of `psll_linux_boot_time` and `psll_linux_clock_ticks` equals the handle's stored
creation time, `psll_num_threads`, `psll_cpu_times` and `psll_memory_info` fail with
`ZombieProcess(pid)`, whatever the read of `/proc/<pid>/statm` gives. On uncalibrated
globals the hypothesis on the creation time fails although the record's creation time is
the stored one. -/
theorem zombie_detection {F : Type} (ops : DoubleOps F) (sys : Sys) (h : ps_handle_t F)
    (g : Globals F) (stat : psl_stat_t) (name : List Char)
    (hstat : (psll__parse_stat_file sys h.pid g).1 = .ok (some (stat, name)))
    (hz : stat.state = 'Z')
    (hid : ops.eq (creation_time ops g.psll_linux_boot_time g.psll_linux_clock_ticks stat)
      h.create_time = true) :
    (psll_num_threads ops sys (some h) g).1 = .threw (.zombie_process h.pid) ∧
    (psll_cpu_times ops sys (some h) g).1 = .threw (.zombie_process h.pid) ∧
    (psll_memory_info ops sys (some h) g).1 = .threw (.zombie_process h.pid) := by
  have hp := parse_stat_file_at sys h.pid g g _ hstat
  have hzg := check_for_zombie_zombie ops sys stat name h g g false hstat hz hid
  refine ⟨?_, ?_, ?_⟩
  · simp only [psll_num_threads, bind_apply, M.bind, hp, Option.isNone_some]
    revert hzg
    generalize ps__check_for_zombie ops sys (some h) false g = r
    rcases r with ⟨o, g1⟩
    rintro rfl
    rfl
  · simp only [psll_cpu_times, bind_apply, M.bind, hp, Option.isNone_some]
    revert hzg
    generalize ps__check_for_zombie ops sys (some h) false g = r
    rcases r with ⟨o, g1⟩
    rintro rfl
    rfl
  · simp only [psll_memory_info, bind_apply, M.bind, ps__read_file]
    cases sys.read_file h.pid .statm with
    | error e =>
      simp only
      have hzg := check_for_zombie_zombie ops sys stat name h g
        { g with errno := e } (decide (ret_of none ≤ 0)) hstat hz hid
      revert hzg
      generalize ps__check_for_zombie ops sys (some h) _ _ = r
      rcases r with ⟨o, g1⟩
      rintro rfl
      rfl
    | ok data =>
      simp only
      have hzg := check_for_zombie_zombie ops sys stat name h g
        g (decide (ret_of (some data) ≤ 0)) hstat hz hid
      revert hzg
      generalize ps__check_for_zombie ops sys (some h) _ _ = r
      rcases r with ⟨o, g1⟩
      rintro rfl
      rfl

/-- The example process as a zombie, on calibrated globals: an instance of
`zombie_detection`. -/
theorem zombie_detection_witness :
    (psll__parse_stat_file (ex_sys ex_zombie_record "") ex_handle.pid ex_globals).1
      = .ok (some (ex_zombie_stat, "sh".toList)) ∧
    ex_zombie_stat.state = 'Z' ∧
    Dbl.ops.eq (creation_time Dbl.ops ex_globals.psll_linux_boot_time
      ex_globals.psll_linux_clock_ticks ex_zombie_stat) ex_handle.create_time = true ∧
    (psll_num_threads Dbl.ops (ex_sys ex_zombie_record "") (some ex_handle) ex_globals).1
      = .threw (.zombie_process ex_handle.pid) ∧
    (psll_cpu_times Dbl.ops (ex_sys ex_zombie_record "") (some ex_handle) ex_globals).1
      = .threw (.zombie_process ex_handle.pid) ∧
    (psll_memory_info Dbl.ops (ex_sys ex_zombie_record "") (some ex_handle) ex_globals).1
      = .threw (.zombie_process ex_handle.pid) :=
  ⟨by decide, by decide, by decide,
    zombie_detection Dbl.ops (ex_sys ex_zombie_record "") ex_handle ex_globals
      ex_zombie_stat "sh".toList (by decide) (by decide) (by decide)⟩

/-- Claim C8 (fails on the code): at program start both calibration globals are 0. The
stat record of pid 42 parses with run state 'Z', and its creation time 1005 is the one
stored in the handle (`psll_is_running`, which calibrates inside `psll_linux_ctime`,
answers `true`). Yet on the uncalibrated globals `psll_num_threads`, `psll_cpu_times` and
`psll_memory_info` fail with `NoSuchProcess(42)`, not with `ZombieProcess(42)`:
`ps__check_for_zombie` compares `0 + starttime / 0` with the stored creation time before
it looks at the run state. On the globals left by the call of `psll_is_running` all three
fail with `ZombieProcess(42)`. -/
theorem zombie_reported_gone_before_calibration :
    (psll__parse_stat_file (ex_sys ex_zombie_record "") ex_handle.pid
        (Globals.initial Dbl.ops)).1 = .ok (some (ex_zombie_stat, "sh".toList)) ∧
    ex_zombie_stat.state = 'Z' ∧
    (psll_is_running Dbl.ops (ex_sys ex_zombie_record "") (some ex_handle)
        (Globals.initial Dbl.ops)).1 = .ok true ∧
    (psll_num_threads Dbl.ops (ex_sys ex_zombie_record "") (some ex_handle)
        (Globals.initial Dbl.ops)).1 = .threw (.no_such_process 42) ∧
    (psll_cpu_times Dbl.ops (ex_sys ex_zombie_record "") (some ex_handle)
        (Globals.initial Dbl.ops)).1 = .threw (.no_such_process 42) ∧
    (psll_memory_info Dbl.ops (ex_sys ex_zombie_record "") (some ex_handle)
        (Globals.initial Dbl.ops)).1 = .threw (.no_such_process 42) ∧
    (psll_num_threads Dbl.ops (ex_sys ex_zombie_record "") (some ex_handle)
        (psll_is_running Dbl.ops (ex_sys ex_zombie_record "") (some ex_handle)
          (Globals.initial Dbl.ops)).2).1 = .threw (.zombie_process 42) ∧
    (psll_cpu_times Dbl.ops (ex_sys ex_zombie_record "") (some ex_handle)
        (psll_is_running Dbl.ops (ex_sys ex_zombie_record "") (some ex_handle)
          (Globals.initial Dbl.ops)).2).1 = .threw (.zombie_process 42) ∧
    (psll_memory_info Dbl.ops (ex_sys ex_zombie_record "") (some ex_handle)
        (psll_is_running Dbl.ops (ex_sys ex_zombie_record "") (some ex_handle)
          (Globals.initial Dbl.ops)).2).1 = .threw (.zombie_process 42) := by
  refine ⟨by decide, by decide, by decide, by decide, by decide, by decide, by decide,
    by decide, by decide⟩

/-- Claim C9 (counterexample): on a stat record without parentheses `psll_format` does
not return a result, it raises "Cannot parse stat file". -/
theorem psll_format_raises_without_parens :
    stat_lacks_paren (ex_sys "42 sh S 1\n" "sh\x00") ex_handle.pid = true ∧
    (psll_format (ex_sys "42 sh S 1\n" "sh\x00") (some ex_handle) ex_globals).1
      = .threw (.message "Cannot parse stat file") := by decide

/-- Claim C9 (amended): `psll_format` raises an error exactly when the stat record of the
handle's pid is read, is not empty and contains no '(' or no ')', and then the error is
"Cannot parse stat file". When the stat record cannot be read, or `psll__parse_stat_file`
returns failure, the result is (name "???", the handle's pid, the handle's stored
create_time, status "terminated"); and every result returned carries the handle's own pid
and create_time. -/
theorem psll_format_amended {F : Type} (sys : Sys) (h : ps_handle_t F) (g : Globals F) :
    (∀ e, (psll_format sys (some h) g).1 = .threw e ↔
      e = .message "Cannot parse stat file" ∧ stat_lacks_paren sys h.pid = true) ∧
    (∀ e, sys.read_file h.pid .stat = .error e →
      (psll_format sys (some h) g).1 =
        .ok ("???".toList, h.pid, h.create_time, "terminated")) ∧
    ((psll__parse_stat_file sys h.pid g).1 = .ok none →
      (psll_format sys (some h) g).1 =
        .ok ("???".toList, h.pid, h.create_time, "terminated")) ∧
    (∀ r, (psll_format sys (some h) g).1 = .ok r →
      r.2.1 = h.pid ∧ r.2.2.1 = h.create_time) := by
  have hnone : (psll__parse_stat_file sys h.pid g).1 = .ok none →
      (psll_format sys (some h) g).1 =
        .ok ("???".toList, h.pid, h.create_time, "terminated") := by
    intro hp
    rw [format_of_parse, hp]
  refine ⟨?_, ?_, hnone, ?_⟩
  · intro e
    rw [← parse_stat_file_threw_iff sys h.pid g e, format_of_parse]
    rcases (psll__parse_stat_file sys h.pid g).1 with (_ | ⟨stat, cname⟩) | e' | _ <;> simp
  · intro e he
    apply hnone
    rw [parse_stat_file_read_error sys h.pid g e he]
  · intro r
    rw [format_of_parse]
    rcases (psll__parse_stat_file sys h.pid g).1 with (_ | ⟨stat, cname⟩) | e' | _ <;>
      simp only [Outcome.ok.injEq, reduceCtorEq, false_implies]
    · rintro rfl; exact ⟨rfl, rfl⟩
    · rintro rfl; exact ⟨rfl, rfl⟩

/-- Witness of C9 (amended): a pid without stat record is formatted with the
placeholders and the handle's own pid and creation time. -/
theorem psll_format_amended_witness :
    (ex_sys ex_record "").read_file ex_absent_handle.pid .stat = .error ENOENT ∧
    (psll_format (ex_sys ex_record "") (some ex_absent_handle) ex_globals).1
      = .ok ("???".toList, ex_absent_handle.pid, ex_absent_handle.create_time,
          "terminated") :=
  ⟨rfl,
    (psll_format_amended (ex_sys ex_record "") ex_absent_handle ex_globals).2.1 ENOENT
      rfl⟩

/-- Claim C10: with `readlink(path, buf, k)` writing the first `min n k` bytes of the
`n`-byte target and returning that count, `psll__readlink` is total (the loop ends after
finitely many buffer growths); for every non-empty target, of whatever length, it returns
success and leaves in `*linkname` the complete target followed by a null terminator; for
an empty target it returns failure with `errno = ENOENT`, and for a `readlink` error it
returns failure with the `errno` of `readlink`. -/
theorem psll__readlink_complete {F : Type} (sys : Sys) (pid : Int) (l : ProcLink)
    (g : Globals F) :
    psll__readlink sys pid l g =
      match sys.link pid l with
      | .error e => (.ok none, { g with errno := e })
      | .ok [] => (.ok none, { g with errno := ENOENT })
      | .ok (c :: cs) => (.ok (some (c :: cs ++ [NUL])), g) := by
  rw [psll__readlink_eq]
  rcases sys.link pid l with e | (_ | ⟨c, cs⟩) <;> simp

/-- Claim C11 (fails on the code): at program start both calibration globals are 0. A
handle for pid 42 is built by `psll_handle` from the creation time 1005 supplied by the
caller, which leaves the globals at 0; that time is the creation time the OS reports
(`psll_is_running`, which calibrates inside `psll_linux_ctime`, answers `true`). Yet
`psll_name` on the uncalibrated globals fails with `NoSuchProcess(42)`: `PS__CHECK_STAT`
compares `0 + starttime / 0` with the stored creation time. On the globals left by the
call of `psll_is_running` the same handle is accepted and the command name is returned. -/
theorem caller_supplied_handle_rejected_before_calibration :
    psll_handle Dbl.ops (ex_sys ex_record "sh\x00") (some 42) (some (.fin 1005 1))
        (Globals.initial Dbl.ops)
      = (.ok ex_handle, Globals.initial Dbl.ops) ∧
    (psll_is_running Dbl.ops (ex_sys ex_record "sh\x00") (some ex_handle)
        (Globals.initial Dbl.ops)).1 = .ok true ∧
    (psll_name Dbl.ops (ex_sys ex_record "sh\x00") (some ex_handle)
        (Globals.initial Dbl.ops)).1 = .threw (.no_such_process 42) ∧
    (psll_name Dbl.ops (ex_sys ex_record "sh\x00") (some ex_handle)
        (psll_is_running Dbl.ops (ex_sys ex_record "sh\x00") (some ex_handle)
          (Globals.initial Dbl.ops)).2).1 = .ok "sh".toList := by
  refine ⟨by decide, by decide, by decide, by decide⟩

end Ps
